import Mathlib

/-!
Verification of the cloudWise query-interpretation-and-dispatch pipeline.

Python strings are modelled as lists of characters (`Str`); the Python
string operations used by the source (`strip`, `lower`, `split`,
`startswith`, `in`) are modelled by the `py*` helpers below.  Stateful
request handling is modelled by explicit state passing; code that can
raise is modelled in `Except`, with the raised message as the error value.
-/

set_option maxHeartbeats 1000000

namespace CloudWise

/-- A Python `str`, modelled as its list of characters. -/
abbrev Str := List Char

/-- The double-quote character (written via its code point). -/
def dquoteChar : Char := Char.ofNat 34

/-- The single-quote character (written via its code point). -/
def squoteChar : Char := Char.ofNat 39

/-- Whitespace test used by Python `str.strip()`. -/
def isSpaceChar (c : Char) : Bool := c.isWhitespace

/-- Python `str.strip(chars)`: drop characters satisfying `p` from both ends. -/
def pyStripWith (p : Char → Bool) (l : Str) : Str :=
  ((l.dropWhile p).reverse.dropWhile p).reverse

/-- Python `str.strip()` (whitespace from both ends). -/
def pyStrip (l : Str) : Str := pyStripWith isSpaceChar l

/-- Python `str.strip('"')`. -/
def pyStripQuotes (l : Str) : Str := pyStripWith (fun c => c == dquoteChar) l

/-- Python `str.lower()` (per-character lowering). -/
def pyLower (l : Str) : Str := l.map Char.toLower

/-- Python `str.startswith(p)`. -/
def strStartsWith : Str → Str → Bool
  | [], _ => true
  | _ :: _, [] => false
  | a :: asx, b :: bs => a == b && strStartsWith asx bs

/-- Python `c in s` for a single character. -/
def hasChar (c : Char) : Str → Bool
  | [] => false
  | x :: xs => x == c || hasChar c xs

/-- Python `sub in s` (substring containment). -/
def containsSub (sub : Str) : Str → Bool
  | [] => sub.isEmpty
  | x :: xs => strStartsWith sub (x :: xs) || containsSub sub xs

/-- Python `s.split(c)` for a one-character separator (always non-empty result). -/
def splitOnChar (c : Char) : Str → List Str
  | [] => [[]]
  | x :: xs =>
    if x == c then [] :: splitOnChar c xs
    else
      match splitOnChar c xs with
      | [] => [[x]]
      | h :: t => (x :: h) :: t

/-- Python `s.split(c, 1)`: split at the first occurrence of `c`, if any. -/
def splitFirstAt (c : Char) : Str → Option (Str × Str)
  | [] => none
  | x :: xs =>
    if x == c then some ([], xs)
    else
      match splitFirstAt c xs with
      | none => none
      | some (a, b) => some (x :: a, b)

/-- Python `s in l` for a list of strings. -/
def pyMem (s : Str) : List Str → Bool
  | [] => false
  | x :: xs => x = s || pyMem s xs

/-- True when the string is non-empty and has no leading or trailing whitespace. -/
def noEdgeSpace (l : Str) : Bool :=
  (match l.head? with
   | none => true
   | some c => !isSpaceChar c) &&
  (match l.getLast? with
   | none => true
   | some c => !isSpaceChar c)

/-! ### Query Interpreter, textual path

Embedding of the response-parsing step of
`LLMService.process_cloud_query` in `backend/app/llm/llm_service.py`
(lines 49-100): a line-oriented fold over the completion text. -/

/-- A parameter value stored by the textual parser: a scalar string, or a
list of strings when the value is written in square brackets. -/
inductive PValue where
  | scalar (v : Str)
  | listVal (vs : List Str)
deriving DecidableEq

/-- The Structured Command produced by the textual parser: the Python dict
with keys `platforms`, `resources`, `action`, `parameters`. -/
structure PCommand where
  platforms : List Str
  resources : List Str
  action : Str
  parameters : List (Str × PValue)
deriving DecidableEq

/-- The all-empty Structured Command (the parser's initial accumulator). -/
def PCommand.empty : PCommand := ⟨[], [], [], []⟩

/-- Python dict assignment `d[k] = v`: replace in place, else append. -/
def pyDictSet {α : Type} (d : List (Str × α)) (k : Str) (v : α) : List (Str × α) :=
  match d with
  | [] => [(k, v)]
  | (k0, v0) :: rest => if k0 = k then (k, v) :: rest else (k0, v0) :: pyDictSet rest k v

/-- Python `d.get(k)`. -/
def pyGet {α : Type} (d : List (Str × α)) (k : Str) : Option α :=
  match d with
  | [] => none
  | (k0, v0) :: rest => if k0 = k then some v0 else pyGet rest k

/-- Python `d.get(k, dflt)`. -/
def pyGetD {α : Type} (d : List (Str × α)) (k : Str) (dflt : α) : α :=
  match pyGet d k with
  | some v => v
  | none => dflt

/-- The parser's current-section state (`current_section` in the source;
`start` is the initial empty string). -/
inductive Sect where
  | start
  | platforms
  | resources
  | action
  | parameters
deriving DecidableEq

/-- Section-header detection: the four case-insensitive `startswith` tests
of lines 65-76 of `llm/llm_service.py`, applied to the lowered line. -/
def sectionOfHeader (lower : Str) : Option Sect :=
  if strStartsWith "platforms:".data lower then some .platforms
  else if strStartsWith "resources:".data lower then some .resources
  else if strStartsWith "action:".data lower then some .action
  else if strStartsWith "parameters:".data lower then some .parameters
  else none

/-- Is the bracket-list value form taken?  Python
`value.startswith('[') and value.endswith(']')`. -/
def bracketShaped (v : Str) : Bool :=
  v.head? == some '[' && v.getLast? == some ']'

/-- Python `value[1:-1]`. -/
def dropEnds (v : Str) : Str := (v.drop 1).dropLast

/-- Parse the inside of a bracketed value: split on commas, strip whitespace
then double quotes from every piece (line 95 of `llm/llm_service.py`). -/
def parseBracketItems (inner : Str) : List Str :=
  (splitOnChar ',' inner).map (fun x => pyStripQuotes (pyStrip x))

/-- One iteration of the parsing loop of `process_cloud_query`
(lines 58-98 of `llm/llm_service.py`). -/
def parseStep (st : Sect × PCommand) (rawLine : Str) : Sect × PCommand :=
  let line := pyStrip rawLine
  if line.isEmpty then st
  else
    match sectionOfHeader (pyLower line) with
    | some s => (s, st.2)
    | none =>
      match line with
      | '-' :: rest =>
        let content := pyStrip rest
        match st.1 with
        | .platforms =>
          if content.isEmpty then st
          else (st.1, { st.2 with platforms := st.2.platforms ++ [content] })
        | .resources =>
          if content.isEmpty then st
          else (st.1, { st.2 with resources := st.2.resources ++ [pyLower content] })
        | .action =>
          if content.isEmpty then st
          else (st.1, { st.2 with action := content })
        | .parameters =>
          if hasChar ':' content then
            match splitFirstAt ':' content with
            | some (k0, v0) =>
              let key := pyStrip k0
              let value := pyStrip v0
              if bracketShaped value then
                let vs := PValue.listVal (parseBracketItems (dropEnds value))
                (st.1, { st.2 with parameters := pyDictSet st.2.parameters key vs })
              else
                (st.1, { st.2 with parameters := pyDictSet st.2.parameters key (PValue.scalar value) })
            | none => st
          else st
        | .start => st
      | _ => st

/-- Parse a list of already-split lines. -/
def parseResponseLines (lines : List Str) : PCommand :=
  (lines.foldl parseStep (Sect.start, PCommand.empty)).2

/-- The full parsing step of `process_cloud_query`: split the completion on
newlines and fold the line parser over it.  Total by construction, so the
step always returns a Structured Command and never raises. -/
def processCloudQueryParse (response : Str) : PCommand :=
  parseResponseLines (splitOnChar '\n' response)

/-! ### Error Analyst, textual path

Embedding of `LLMService.analyze_error` in
`backend/app/llm/llm_service.py` (lines 126-148). -/

/-- The four explanation sections; all keys are always present in the
result (the dict is initialised with all four). -/
structure ErrorSections where
  explanation : List Str
  causes : List Str
  solutions : List Str
  prevention : List Str
deriving DecidableEq

/-- Current section of the error-analysis parser (`None` initially). -/
inductive ESect where
  | start
  | explanation
  | causes
  | solutions
  | prevention
deriving DecidableEq

/-- One iteration of the error-analysis parsing loop (lines 135-146). -/
def analyzeStep (st : ESect × ErrorSections) (rawLine : Str) : ESect × ErrorSections :=
  let line := pyStrip rawLine
  let lower := pyLower line
  if containsSub "explanation".data lower then (.explanation, st.2)
  else if containsSub "causes".data lower then (.causes, st.2)
  else if containsSub "solution".data lower then (.solutions, st.2)
  else if containsSub "prevention".data lower then (.prevention, st.2)
  else if !line.isEmpty then
    match st.1 with
    | .start => st
    | .explanation => (st.1, { st.2 with explanation := st.2.explanation ++ [line] })
    | .causes => (st.1, { st.2 with causes := st.2.causes ++ [line] })
    | .solutions => (st.1, { st.2 with solutions := st.2.solutions ++ [line] })
    | .prevention => (st.1, { st.2 with prevention := st.2.prevention ++ [line] })
  else st

/-- The section-parsing step of `analyze_error`: total fold over the lines
of the completion, starting from the four empty sections. -/
def analyzeErrorParse (response : Str) : ErrorSections :=
  ((splitOnChar '\n' response).foldl analyzeStep (ESect.start, ⟨[], [], [], []⟩)).2

/-! ### Query Interpreter and Error Analyst, JSON path

Embedding of `LLMService` in `backend/app/services/llm_service.py` (the
variant imported by `backend/app/api/routes.py`).  The outcome of
`json.loads` on the model output is passed in explicitly: `Except.error`
is a raised `json.JSONDecodeError` carrying its message. -/

/-- A decoded JSON value. -/
inductive Json where
  | null
  | boolean (b : Bool)
  | num (n : Int)
  | str (s : Str)
  | arr (xs : List Json)
  | obj (fields : List (Str × Json))

/-- The all-empty Structured Command substituted on decode failure
(lines 37-42 of `services/llm_service.py`). -/
def emptyCommandJson : Json :=
  .obj [("platforms".data, .arr []), ("resources".data, .arr []),
        ("action".data, .str []), ("parameters".data, .obj [])]

/-- The response-handling step of `services` `process_cloud_query`
(lines 30-44): return the decoded JSON, or the all-empty command when
decoding raised `JSONDecodeError`.  Never re-raises a decode failure. -/
def processCloudQueryJson (decoded : Except Str Json) : Json :=
  match decoded with
  | .ok j => j
  | .error _ => emptyCommandJson

/-- The `services` variant of `analyze_error` (lines 115-142): returns
`json.loads` of the completion unchanged; a decode failure is re-raised
wrapped as `Error analyzing error: ...`. -/
def servicesAnalyzeError (decoded : Except Str Json) : Except Str Json :=
  match decoded with
  | .ok j => .ok j
  | .error e => .error ("Error analyzing error: ".data ++ e)

/-! ### Provider cost operations

Embedding of `AWSClient.get_cost_and_usage`
(`backend/app/cloud_providers/aws_client.py`, lines 210-255) and
`AzureClient.get_cost_analysis`
(`backend/app/cloud_providers/azure_client.py`, lines 317-483).  The
remote query outcome is passed in explicitly; monetary amounts are
modelled as integers. -/

/-- One Cost Explorer group: `Keys = [service, location]` and its amount
(the raw location may be empty, in which case `global` is substituted). -/
structure AwsCostGroup where
  service : Str
  location : Str
  amount : Int

/-- Python `d[k] = d.get(k, 0) + v` on a numeric dict. -/
def dictAdd (d : List (Str × Int)) (k : Str) (v : Int) : List (Str × Int) :=
  match d with
  | [] => [(k, v)]
  | (k0, v0) :: rest => if k0 = k then (k0, v0 + v) :: rest else (k0, v0) :: dictAdd rest k v

/-- The populated result dict of `get_cost_and_usage` (lines 244-252). -/
structure AwsCostResult where
  timeframe : Str
  startDate : Str
  endDate : Str
  currency : Str
  totalCost : Int
  costsByService : List (Str × Int)
  costsByLocation : List (Str × Int)
deriving DecidableEq

/-- `AWSClient.get_cost_and_usage`: aggregate the response groups into
totals by service and by location; a `ClientError` from the Cost Explorer
call is re-raised with a wrapped message. -/
def awsGetCostAndUsage (startDate endDate : Str)
    (response : Except Str (List (List AwsCostGroup))) : Except Str AwsCostResult :=
  match response with
  | .error e => .error ("Error getting cost and usage data: ".data ++ e)
  | .ok resultsByTime =>
    let groups := resultsByTime.foldl (fun acc g => acc ++ g) []
    let final := groups.foldl
      (fun (st : List (Str × Int) × List (Str × Int) × Int) g =>
        let loc := if g.location.isEmpty then "global".data else g.location
        (dictAdd st.1 g.service g.amount, dictAdd st.2.1 loc g.amount, st.2.2 + g.amount))
      ([], [], 0)
    .ok { timeframe := startDate ++ " to ".data ++ endDate
          startDate := startDate
          endDate := endDate
          currency := "USD".data
          totalCost := final.2.2
          costsByService := final.1
          costsByLocation := final.2.1 }

/-- One row of the Azure cost query result. -/
structure AzureCostRow where
  cost : Int
  service : Str
  location : Str
deriving DecidableEq

/-- The value `get_cost_analysis` actually produces on its reachable
paths: the `empty` status dict or the `error` status dict. -/
inductive AzureCostOutcome where
  | emptyResp (message : Str)
  | errorResp (message : Str)
deriving DecidableEq

/-- The number of days of the cost window selected from the timeframe
(lines 329-336 of `azure_client.py`). -/
def azureTimeframeDays (timeframe : Str) : Nat :=
  if timeframe = "LastMonth".data then 30
  else if timeframe = "LastWeek".data then 7
  else 30

/-- `AzureClient.get_cost_analysis`: the `try` block ends with the
empty-rows check; the cost-processing code of lines 393-483 sits inside
the `except` block after its unconditional `return`, so it is
unreachable.  When the query succeeds with at least one row the function
body ends without a `return` and Python yields `None`, modelled as
`Option.none`. -/
def azureGetCostAnalysis (timeframe : Str)
    (queryOutcome : Except Str (List AzureCostRow)) : Option AzureCostOutcome :=
  let _days := azureTimeframeDays timeframe
  match queryOutcome with
  | .error e => some (.errorResp ("Error getting cost data: ".data ++ e))
  | .ok rows =>
    if rows.isEmpty then
      some (.emptyResp "No cost data available for the specified timeframe".data)
    else
      none

/-! ### Command Dispatcher

Embedding of `execute_cloud_command` in `backend/app/api/routes.py`
(lines 122-228).  Provider gateway calls are modelled as functions
returning `Except Str v` (`Except.error` is a raised exception carrying
`str(e)`); every gateway invocation is also recorded in an explicit call
trace.  A raised `HTTPException` from the outer handler is the
`Except.error` of the result. -/

/-- A Python value stored in the `responses` dict. -/
inductive Val where
  | str (s : Str)
  | num (n : Int)
  | listV (vs : List Val)
  | dict (fields : List (Str × Val))
  | noneV

/-- One S3 bucket record as produced by `list_s3_buckets`: the `Size` and
`ObjectCount` fields read by the dispatcher, plus any other fields. -/
structure Bucket where
  size : Int
  objectCount : Int
  rest : List (Str × Val)

/-- A provider gateway call recorded in the trace. -/
inductive Call where
  | azureListVirtualMachines (resourceGroup : Option Val)
  | azureListStorageAccounts
  | azureCostAnalysis (timeframe : Val)
  | azureGetVmStatus (resourceGroup vmName : Val)
  | azureListResourceGroups
  | awsListEc2Instances (filters : Option Val)
  | awsListS3Buckets
  | awsCostAndUsage (startDate endDate : Str)
  | analyzeErrorOp (operation errorMessage platform resource : Str)

/-- The AWS Provider Operation Gateway as used by the dispatcher. -/
structure AwsClientM where
  list_ec2_instances : Option Val → Except Str (List (Str × List Val))
  list_s3_buckets : Except Str (List (Str × List Bucket))
  get_cost_and_usage : Str → Str → Except Str Val

/-- The Azure Provider Operation Gateway as used by the dispatcher. -/
structure AzureClientM where
  list_virtual_machines : Option Val → Except Str (List (Str × List Val))
  list_storage_accounts : Except Str (List (Str × List Val))
  get_cost_analysis : Val → Except Str Val
  get_vm_status : Val → Val → Except Str Val
  list_resource_groups : Except Str Val

/-- The Structured Command consumed by the dispatcher. -/
structure Command where
  platforms : List Str
  resources : List Str
  action : Str
  parameters : List (Str × Val)

/-- The `available_services` booleans of the envelope. -/
structure ServiceStatus where
  aws : Bool
  azure : Bool
  llm : Bool
deriving DecidableEq

/-- The response envelope assembled at lines 218-226. -/
structure Envelope where
  command_interpreted : Command
  results : List (Str × Val)
  available_services : ServiceStatus

/-- Request-time context: the optional provider clients and LLM service,
and the date range the dispatcher derives from `datetime.now()`. -/
structure Ctx where
  aws : Option AwsClientM
  azure : Option AzureClientM
  llm : Bool
  startDate : Str
  endDate : Str

/-- The per-platform "client not initialized" messages. -/
def azureNotInitMsg : Str :=
  "Azure client not initialized. Please check Azure credentials.".data

def awsNotInitMsg : Str :=
  "AWS client not initialized. Please check AWS credentials.".data

/-- `str(KeyError(k))` is the key wrapped in single quotes. -/
def keyErrorMsg (k : Str) : Str := squoteChar :: (k ++ [squoteChar])

/-- Render a region map as the Python value stored under `regions`. -/
def regionsVal (m : List (Str × List Val)) : Val :=
  .dict (m.map (fun p => (p.1, .listV p.2)))

/-- Total number of records across all regions. -/
def totalCount (m : List (Str × List Val)) : Int :=
  (m.map (fun p => (p.2.length : Int))).sum

/-- Render an S3 region map as the Python value stored under `regions`. -/
def bucketVal (b : Bucket) : Val :=
  .dict (("Size".data, .num b.size) :: ("ObjectCount".data, .num b.objectCount) :: b.rest)

def bucketRegionsVal (m : List (Str × List Bucket)) : Val :=
  .dict (m.map (fun p => (p.1, .listV (p.2.map bucketVal))))

def bucketTotalCount (m : List (Str × List Bucket)) : Int :=
  (m.map (fun p => (p.2.length : Int))).sum

def bucketTotalSize (m : List (Str × List Bucket)) : Int :=
  (m.map (fun p => (p.2.map Bucket.size).sum)).sum

def bucketTotalObjects (m : List (Str × List Bucket)) : Int :=
  (m.map (fun p => (p.2.map Bucket.objectCount).sum)).sum

/-- The `for resource in command['resources']` loop of the first Azure
block (lines 138-160): returns the dict entries assigned so far, the
calls issued, and the message of a caught exception when one was raised
(aborting the rest of the loop). -/
def azureResourceLoop (az : AzureClientM) (cmd : Command) :
    List Str → List (Str × Val) × List Call × Option Str
  | [] => ([], [], none)
  | r :: rs =>
    if r = "VM".data then
      if containsSub "list".data (pyLower cmd.action) then
        let rg := pyGet cmd.parameters "resource_group".data
        match az.list_virtual_machines rg with
        | .ok m =>
          let entry := ("azure_vm".data,
            Val.dict [("regions".data, regionsVal m), ("total_vms".data, .num (totalCount m))])
          let (es, cs, err) := azureResourceLoop az cmd rs
          (entry :: es, .azureListVirtualMachines rg :: cs, err)
        | .error e => ([], [.azureListVirtualMachines rg], some e)
      else azureResourceLoop az cmd rs
    else if r = "Storage".data then
      if containsSub "list".data (pyLower cmd.action) then
        match az.list_storage_accounts with
        | .ok m =>
          let entry := ("azure_storage".data,
            Val.dict [("regions".data, regionsVal m), ("total_accounts".data, .num (totalCount m))])
          let (es, cs, err) := azureResourceLoop az cmd rs
          (entry :: es, .azureListStorageAccounts :: cs, err)
        | .error e => ([], [.azureListStorageAccounts], some e)
      else azureResourceLoop az cmd rs
    else if r = "cost".data ∨ r = "costs".data then
      let tf := pyGetD cmd.parameters "timeframe".data (Val.str "LastMonth".data)
      match az.get_cost_analysis tf with
      | .ok v =>
        let (es, cs, err) := azureResourceLoop az cmd rs
        (("azure_costs".data, v) :: es, .azureCostAnalysis tf :: cs, err)
      | .error e => ([], [.azureCostAnalysis tf], some e)
    else azureResourceLoop az cmd rs

/-- The `for resource in command['resources']` loop of the AWS block
(lines 170-195). -/
def awsResourceLoop (aw : AwsClientM) (ctx : Ctx) (cmd : Command) :
    List Str → List (Str × Val) × List Call × Option Str
  | [] => ([], [], none)
  | r :: rs =>
    if r = "EC2".data then
      if containsSub "list".data (pyLower cmd.action) then
        let filters := pyGet cmd.parameters "filters".data
        match aw.list_ec2_instances filters with
        | .ok m =>
          let entry := ("aws_ec2".data,
            Val.dict [("regions".data, regionsVal m), ("total_instances".data, .num (totalCount m))])
          let (es, cs, err) := awsResourceLoop aw ctx cmd rs
          (entry :: es, .awsListEc2Instances filters :: cs, err)
        | .error e => ([], [.awsListEc2Instances filters], some e)
      else awsResourceLoop aw ctx cmd rs
    else if r = "S3".data then
      if containsSub "list".data (pyLower cmd.action) then
        match aw.list_s3_buckets with
        | .ok m =>
          let entry := ("aws_s3".data,
            Val.dict [("regions".data, bucketRegionsVal m),
                      ("total_buckets".data, .num (bucketTotalCount m)),
                      ("total_size".data, .num (bucketTotalSize m)),
                      ("total_objects".data, .num (bucketTotalObjects m))])
          let (es, cs, err) := awsResourceLoop aw ctx cmd rs
          (entry :: es, .awsListS3Buckets :: cs, err)
        | .error e => ([], [.awsListS3Buckets], some e)
      else awsResourceLoop aw ctx cmd rs
    else if r = "cost".data ∨ r = "costs".data then
      match aw.get_cost_and_usage ctx.startDate ctx.endDate with
      | .ok v =>
        let (es, cs, err) := awsResourceLoop aw ctx cmd rs
        (("aws_costs".data, v) :: es, .awsCostAndUsage ctx.startDate ctx.endDate :: cs, err)
      | .error e => ([], [.awsCostAndUsage ctx.startDate ctx.endDate], some e)
    else awsResourceLoop aw ctx cmd rs

/-- The first Azure block (lines 133-162): the whole resource loop is in
one `try`; a caught exception becomes the `azure_error` entry. -/
def azureFirstBlock (ctx : Ctx) (cmd : Command) : List (Str × Val) × List Call :=
  if pyMem "Azure".data cmd.platforms then
    match ctx.azure with
    | none => ([("azure_error".data, .str azureNotInitMsg)], [])
    | some az =>
      let (es, cs, err) := azureResourceLoop az cmd cmd.resources
      match err with
      | none => (es, cs)
      | some e =>
        (es ++ [("azure_error".data, .str ("Error executing Azure command: ".data ++ e))], cs)
  else ([], [])

/-- The AWS block (lines 165-197), with the same wrapping shape. -/
def awsBlock (ctx : Ctx) (cmd : Command) : List (Str × Val) × List Call :=
  if pyMem "AWS".data cmd.platforms then
    match ctx.aws with
    | none => ([("aws_error".data, .str awsNotInitMsg)], [])
    | some aw =>
      let (es, cs, err) := awsResourceLoop aw ctx cmd cmd.resources
      match err with
      | none => (es, cs)
      | some e =>
        (es ++ [("aws_error".data, .str ("Error executing AWS command: ".data ++ e))], cs)
  else ([], [])

/-- The second Azure block (lines 199-216): membership tests on the
resources list, with NO inner `try`, so a raised error (including the
`KeyError` from the direct `command['parameters'][...]` subscripts)
propagates out of the block. -/
def azureSecondBlock (ctx : Ctx) (cmd : Command) :
    Except Str (List (Str × Val)) × List Call :=
  if pyMem "Azure".data cmd.platforms then
    match ctx.azure with
    | none => (.ok [("azure_error".data, .str azureNotInitMsg)], [])
    | some az =>
      if pyMem "VM".data cmd.resources then
        if containsSub "list".data (pyLower cmd.action) then
          let rg := pyGet cmd.parameters "resource_group".data
          match az.list_virtual_machines rg with
          | .ok m => (.ok [("azure_vms".data, regionsVal m)], [.azureListVirtualMachines rg])
          | .error e => (.error e, [.azureListVirtualMachines rg])
        else if containsSub "status".data (pyLower cmd.action) then
          match pyGet cmd.parameters "resource_group".data with
          | none => (.error (keyErrorMsg "resource_group".data), [])
          | some rg =>
            match pyGet cmd.parameters "vm_name".data with
            | none => (.error (keyErrorMsg "vm_name".data), [])
            | some vm =>
              match az.get_vm_status rg vm with
              | .ok v => (.ok [("azure_vm_status".data, v)], [.azureGetVmStatus rg vm])
              | .error e => (.error e, [.azureGetVmStatus rg vm])
        else (.ok [], [])
      else if pyMem "ResourceGroup".data cmd.resources then
        if containsSub "list".data (pyLower cmd.action) then
          match az.list_resource_groups with
          | .ok v => (.ok [("azure_groups".data, v)], [.azureListResourceGroups])
          | .error e => (.error e, [.azureListResourceGroups])
        else (.ok [], [])
      else (.ok [], [])
  else (.ok [], [])

/-- `execute_cloud_command`: run the three blocks in order, fold all dict
assignments into `responses`, and either return the envelope or surface
an uncaught error as the raised `HTTPException` (the `Except.error`). -/
def executeCloudCommand (ctx : Ctx) (cmd : Command) : Except Str Envelope × List Call :=
  let b1 := azureFirstBlock ctx cmd
  let b2 := awsBlock ctx cmd
  let b3 := azureSecondBlock ctx cmd
  let trace := b1.2 ++ b2.2 ++ b3.2
  match b3.1 with
  | .error e => (.error e, trace)
  | .ok e3 =>
    let responses := (b1.1 ++ b2.1 ++ e3).foldl (fun d kv => pyDictSet d kv.1 kv.2) []
    (.ok { command_interpreted := cmd
           results := responses
           available_services :=
             { aws := ctx.aws.isSome, azure := ctx.azure.isSome, llm := ctx.llm } }, trace)

/-- The `/analyze-error` endpoint (lines 230-242): it invokes the Error
Analyst with exactly the four request fields; this is the only call site
of `analyze_error` in `routes.py`. -/
def analyzeErrorEndpointCalls (operation errorMessage platform resource : Str) : List Call :=
  [.analyzeErrorOp operation errorMessage platform resource]

/-! ### Definitions modelled from the spec

The repository has no renderer for the textual Structured-Command layout
and no `UnsupportedCommand` value; the two definitions below follow the
spec's words so that the corresponding claims can be stated. -/

/-- A bulleted line of the textual layout. -/
def bulletLine (t : Str) : Str := '-' :: ' ' :: t

/-- Join list items as a quoted, comma-separated bracket body. -/
def joinQuoted : List Str → Str
  | [] => []
  | [v] => dquoteChar :: (v ++ [dquoteChar])
  | v :: vs => dquoteChar :: (v ++ [dquoteChar]) ++ ',' :: ' ' :: joinQuoted vs

/-- Render one parameter value: scalars verbatim, lists in `[...]` with
quoted comma-separated items. -/
def paramValueText : PValue → Str
  | .scalar v => v
  | .listVal vs => '[' :: (joinQuoted vs ++ [']'])

/-- Join lines with newlines. -/
def joinLines : List Str → Str
  | [] => []
  | [l] => l
  | l :: ls => l ++ '\n' :: joinLines ls

/-- The bulleted `key: value` line of one parameter. -/
def paramLine (kv : Str × PValue) : Str :=
  bulletLine (kv.1 ++ ':' :: ' ' :: paramValueText kv.2)

/-- The lines of the fixed multi-section textual layout. -/
def formatLines (cmd : PCommand) : List Str :=
  "Platforms:".data :: cmd.platforms.map bulletLine
    ++ "Resources:".data :: cmd.resources.map bulletLine
    ++ "Action:".data :: (if cmd.action.isEmpty then [] else [bulletLine cmd.action])
    ++ "Parameters:".data :: cmd.parameters.map paramLine

/-- Modelled from the spec: the repository has no formatter, so this
renders a Structured Command in the fixed multi-section textual layout of
section 4.1 (`Platforms:`/`Resources:`/`Action:`/`Parameters:` headers,
each entry a leading-dash bulleted line, parameter lines `key: value`,
list values as bracketed comma-separated quote-wrapped items). -/
def formatCommand (cmd : PCommand) : Str := joinLines (formatLines cmd)

/-- Modelled from the spec: the repository defines no UnsupportedCommand
value, so per section 7 an `UnsupportedCommand`-class result is a
terminal 400-class condition surfaced to the caller as an error outcome
instead of a success envelope. -/
def UnsupportedCommandResult (r : Except Str Envelope) : Prop :=
  ∃ e, r = Except.error e

/-! #### Well-formedness conditions for the round-trip claim -/

/-- A canonical token: non-empty, no edge whitespace, no newline. -/
def cleanToken (t : Str) : Bool :=
  !t.isEmpty && noEdgeSpace t && !hasChar '\n' t

/-- A canonical action: possibly empty, no edge whitespace, no newline. -/
def cleanAction (t : Str) : Bool :=
  noEdgeSpace t && !hasChar '\n' t

/-- A canonical parameter key: a clean token without a colon. -/
def cleanKey (k : Str) : Bool :=
  cleanToken k && !hasChar ':' k

/-- A canonical scalar value: trimmed, newline-free, and not shaped like a
bracket list. -/
def cleanScalar (v : Str) : Bool :=
  noEdgeSpace v && !hasChar '\n' v && !bracketShaped v

/-- A canonical list item: comma-free, newline-free, no double quote at
either edge. -/
def cleanListItem (v : Str) : Bool :=
  !hasChar ',' v && !hasChar '\n' v
    && !(v.head? == some dquoteChar) && !(v.getLast? == some dquoteChar)

def cleanValue : PValue → Bool
  | .scalar v => cleanScalar v
  | .listVal vs => !vs.isEmpty && vs.all cleanListItem

/-- Pairwise-distinct keys. -/
def keysDistinct : List Str → Bool
  | [] => true
  | k :: ks => !pyMem k ks && keysDistinct ks

/-- A Structured Command in the canonical textual encoding: clean tokens,
lower-cased resources, clean action, clean distinct parameter keys and
clean values. -/
def cleanCommand (cmd : PCommand) : Bool :=
  cmd.platforms.all cleanToken
    && cmd.resources.all (fun r => cleanToken r && pyLower r == r)
    && cleanAction cmd.action
    && cmd.parameters.all (fun kv => cleanKey kv.1 && cleanValue kv.2)
    && keysDistinct (cmd.parameters.map Prod.fst)

/-- Does a resource token select any branch of the dispatch table of
`execute_cloud_command` for the given action?  (Read off the branch
structure of lines 139-216: `VM` with a list/status action, `Storage`,
`EC2`, `S3`, `ResourceGroup` with a list action, `cost`/`costs`
unconditionally.) -/
def resourceMatches (r : Str) (action : Str) : Bool :=
  let lact := pyLower action
  (r = "VM".data && (containsSub "list".data lact || containsSub "status".data lact))
    || (r = "Storage".data && containsSub "list".data lact)
    || r = "cost".data || r = "costs".data
    || (r = "EC2".data && containsSub "list".data lact)
    || (r = "S3".data && containsSub "list".data lact)
    || (r = "ResourceGroup".data && containsSub "list".data lact)

/-! ### Concrete gateways and commands used as witnesses -/

def demoRegions : List (Str × List Val) := [("eastus".data, [Val.str "vm1".data])]

/-- An Azure gateway whose operations all succeed. -/
def okAzureClient : AzureClientM where
  list_virtual_machines := fun _ => .ok demoRegions
  list_storage_accounts := .ok demoRegions
  get_cost_analysis := fun _ => .ok (Val.num 7)
  get_vm_status := fun _ _ => .ok (Val.str "running".data)
  list_resource_groups := .ok (Val.listV [])

/-- An Azure gateway whose `list_virtual_machines` raises `boom`. -/
def failVmAzureClient : AzureClientM :=
  { okAzureClient with list_virtual_machines := fun _ => .error "boom".data }

/-- An Azure gateway whose `list_storage_accounts` raises `denied`. -/
def failStorageAzureClient : AzureClientM :=
  { okAzureClient with list_storage_accounts := .error "denied".data }

/-- An Azure gateway whose `get_cost_analysis` raises `denied`. -/
def failCostAzureClient : AzureClientM :=
  { okAzureClient with get_cost_analysis := fun _ => .error "denied".data }

/-- An AWS gateway whose operations all succeed. -/
def okAwsClient : AwsClientM where
  list_ec2_instances := fun _ => .ok demoRegions
  list_s3_buckets := .ok []
  get_cost_and_usage := fun _ _ => .ok (Val.num 3)

/-- An AWS gateway whose `get_cost_and_usage` raises `denied`. -/
def failCostAwsClient : AwsClientM :=
  { okAwsClient with get_cost_and_usage := fun _ _ => .error "denied".data }

def demoCtx : Ctx where
  aws := some okAwsClient
  azure := some okAzureClient
  llm := true
  startDate := "2026-09-12".data
  endDate := "2026-10-12".data

/-! ## Lemmas -/

/-! ### Basic string lemmas -/

theorem splitOnChar_ne_nil (c : Char) (l : Str) : splitOnChar c l ≠ [] := by
  induction l with
  | nil => simp [splitOnChar]
  | cons x xs ih =>
    simp only [splitOnChar]
    by_cases h : x == c
    · simp [h]
    · simp only [h]
      cases hs : splitOnChar c xs with
      | nil => simp
      | cons a b => simp

theorem hasChar_append (c : Char) (a b : Str) :
    hasChar c (a ++ b) = (hasChar c a || hasChar c b) := by
  induction a with
  | nil => simp [hasChar]
  | cons x xs ih => simp [hasChar, ih, Bool.or_assoc]

/-- Splitting a string that does not contain the separator yields the string itself. -/
theorem splitOnChar_of_not_has {c : Char} {l : Str} (h : hasChar c l = false) :
    splitOnChar c l = [l] := by
  induction l with
  | nil => simp [splitOnChar]
  | cons x xs ih =>
    simp only [hasChar, Bool.or_eq_false_iff] at h
    simp [splitOnChar, h.1, ih h.2]

/-- Splitting cuts at the first separator occurrence after a separator-free chunk. -/
theorem splitOnChar_append_sep {c : Char} {a : Str} (s : Str) (h : hasChar c a = false) :
    splitOnChar c (a ++ c :: s) = a :: splitOnChar c s := by
  induction a with
  | nil => simp [splitOnChar]
  | cons x xs ih =>
    simp only [hasChar, Bool.or_eq_false_iff] at h
    simp [List.cons_append, splitOnChar, h.1, ih h.2]

theorem pyStrip_cons_space {t : Str} : pyStrip (' ' :: t) = pyStrip t := by
  simp [pyStrip, pyStripWith, List.dropWhile, isSpaceChar]

/-- A string with no whitespace at either edge is fixed by `strip`. -/
theorem pyStrip_eq_self {l : Str} (h : noEdgeSpace l = true) : pyStrip l = l := by
  cases l with
  | nil => rfl
  | cons x xs =>
    simp only [noEdgeSpace, List.head?, Bool.and_eq_true, Bool.not_eq_true'] at h
    obtain ⟨h1, h2⟩ := h
    cases hr : (x :: xs).reverse with
    | nil => simp at hr
    | cons y ys =>
      have hy : (x :: xs).getLast? = some y := by
        rw [← List.head?_reverse, hr]; rfl
      have h2y : isSpaceChar y = false := by
        rw [hy] at h2; simpa using h2
      simp only [pyStrip, pyStripWith, List.dropWhile, h1, hr, h2y]
      rw [← hr, List.reverse_reverse]

/-! ### Dispatcher lemmas -/

theorem pyMem_iff {s : Str} : ∀ {l : List Str}, pyMem s l = true ↔ s ∈ l := by
  intro l
  induction l with
  | nil => simp [pyMem]
  | cons x xs ih =>
    simp only [pyMem, Bool.or_eq_true, decide_eq_true_eq, ih, List.mem_cons]
    constructor
    · rintro (h | h)
      · exact Or.inl h.symm
      · exact Or.inr h
    · rintro (h | h)
      · exact Or.inl h.symm
      · exact Or.inr h

/-- The first Azure block's loop only ever calls the three Azure read
operations; in particular it never calls the Error Analyst. -/
theorem azureResourceLoop_no_analyze (az : AzureClientM) (cmd : Command)
    (o e p r : Str) :
    ∀ rs, Call.analyzeErrorOp o e p r ∉ (azureResourceLoop az cmd rs).2.1 := by
  intro rs
  induction rs with
  | nil => simp [azureResourceLoop]
  | cons x xs ih =>
    simp only [azureResourceLoop]
    repeat' split
    all_goals simp_all [List.mem_cons]

/-- The AWS block's loop never calls the Error Analyst. -/
theorem awsResourceLoop_no_analyze (aw : AwsClientM) (ctx : Ctx) (cmd : Command)
    (o e p r : Str) :
    ∀ rs, Call.analyzeErrorOp o e p r ∉ (awsResourceLoop aw ctx cmd rs).2.1 := by
  intro rs
  induction rs with
  | nil => simp [awsResourceLoop]
  | cons x xs ih =>
    simp only [awsResourceLoop]
    repeat' split
    all_goals simp_all [List.mem_cons]

theorem azureFirstBlock_no_analyze (ctx : Ctx) (cmd : Command) (o e p r : Str) :
    Call.analyzeErrorOp o e p r ∉ (azureFirstBlock ctx cmd).2 := by
  simp only [azureFirstBlock]
  repeat' split
  all_goals
    first
    | exact azureResourceLoop_no_analyze _ cmd o e p r _
    | simp

theorem awsBlock_no_analyze (ctx : Ctx) (cmd : Command) (o e p r : Str) :
    Call.analyzeErrorOp o e p r ∉ (awsBlock ctx cmd).2 := by
  simp only [awsBlock]
  repeat' split
  all_goals
    first
    | exact awsResourceLoop_no_analyze _ ctx cmd o e p r _
    | simp

theorem azureSecondBlock_no_analyze (ctx : Ctx) (cmd : Command) (o e p r : Str) :
    Call.analyzeErrorOp o e p r ∉ (azureSecondBlock ctx cmd).2 := by
  simp only [azureSecondBlock]
  repeat' split
  all_goals simp_all

/-- When a resource token's operation raises, the loop stops there: the
tokens after it contribute nothing (first Azure block's loop). -/
theorem azureResourceLoop_head_error_stops (az : AzureClientM) (cmd : Command)
    (r : Str) (rs : List Str)
    (hne : (azureResourceLoop az cmd [r]).2.2 ≠ none) :
    azureResourceLoop az cmd (r :: rs) = azureResourceLoop az cmd [r] := by
  simp only [azureResourceLoop] at hne ⊢
  repeat' split
  all_goals simp_all

/-- Same stopping behaviour for the AWS block's loop. -/
theorem awsResourceLoop_head_error_stops (aw : AwsClientM) (ctx : Ctx) (cmd : Command)
    (r : Str) (rs : List Str)
    (hne : (awsResourceLoop aw ctx cmd [r]).2.2 ≠ none) :
    awsResourceLoop aw ctx cmd (r :: rs) = awsResourceLoop aw ctx cmd [r] := by
  simp only [awsResourceLoop] at hne ⊢
  repeat' split
  all_goals simp_all

/-- The dispatcher's trace is the concatenation of the three blocks'
traces, whether or not the second Azure block raises. -/
theorem executeCloudCommand_trace (ctx : Ctx) (cmd : Command) :
    (executeCloudCommand ctx cmd).2
      = (azureFirstBlock ctx cmd).2 ++ (awsBlock ctx cmd).2 ++ (azureSecondBlock ctx cmd).2 := by
  simp only [executeCloudCommand]
  split <;> rfl

/-- A resource token matching no dispatch branch is skipped by the first
Azure block's loop: nothing assigned, nothing called, nothing raised. -/
theorem azureResourceLoop_no_match (az : AzureClientM) (cmd : Command) :
    ∀ rs, (∀ r0 ∈ rs, resourceMatches r0 cmd.action = false) →
      azureResourceLoop az cmd rs = ([], [], none) := by
  intro rs
  induction rs with
  | nil => intro _; rfl
  | cons x xs ih =>
    intro h
    have hx := h x (List.mem_cons_self x xs)
    have hxs : ∀ r0 ∈ xs, resourceMatches r0 cmd.action = false :=
      fun r0 hr => h r0 (List.mem_cons_of_mem x hr)
    simp only [azureResourceLoop]
    split_ifs with h1 h2 h3 h4 h5
    · simp [resourceMatches, h1, h2] at hx
    · exact ih hxs
    · simp [resourceMatches, h3, h4] at hx
    · exact ih hxs
    · rcases h5 with h5 | h5 <;> simp [resourceMatches, h5] at hx
    · exact ih hxs

/-- Same for the AWS block's loop. -/
theorem awsResourceLoop_no_match (aw : AwsClientM) (ctx : Ctx) (cmd : Command) :
    ∀ rs, (∀ r0 ∈ rs, resourceMatches r0 cmd.action = false) →
      awsResourceLoop aw ctx cmd rs = ([], [], none) := by
  intro rs
  induction rs with
  | nil => intro _; rfl
  | cons x xs ih =>
    intro h
    have hx := h x (List.mem_cons_self x xs)
    have hxs : ∀ r0 ∈ xs, resourceMatches r0 cmd.action = false :=
      fun r0 hr => h r0 (List.mem_cons_of_mem x hr)
    simp only [awsResourceLoop]
    split_ifs with h1 h2 h3 h4 h5
    · simp [resourceMatches, h1, h2] at hx
    · exact ih hxs
    · simp [resourceMatches, h3, h4] at hx
    · exact ih hxs
    · rcases h5 with h5 | h5 <;> simp [resourceMatches, h5] at hx
    · exact ih hxs

/-! ### Parser lemmas -/

/-- Outside any section (state `start`), a non-header line changes
nothing. -/
theorem parseStep_start_junk (acc : PCommand) (l : Str)
    (h : sectionOfHeader (pyLower (pyStrip l)) = none) :
    parseStep (Sect.start, acc) l = (Sect.start, acc) := by
  cases he : (pyStrip l).isEmpty with
  | true => simp [parseStep, he]
  | false =>
    simp only [parseStep, he, h, Bool.false_eq_true, if_false]
    split <;> rfl

theorem foldl_parseStep_junk :
    ∀ (pre : List Str),
      (∀ l ∈ pre, sectionOfHeader (pyLower (pyStrip l)) = none) →
      pre.foldl parseStep (Sect.start, PCommand.empty) = (Sect.start, PCommand.empty) := by
  intro pre
  induction pre with
  | nil => intro _; rfl
  | cons x xs ih =>
    intro h
    rw [List.foldl_cons, parseStep_start_junk PCommand.empty x (h x (List.mem_cons_self x xs))]
    exact ih (fun l hl => h l (List.mem_cons_of_mem x hl))

/-- Fold invariant: when no line contains `causes`, the causes section is
never entered and stays empty. -/
theorem analyzeFold_causes_empty :
    ∀ (lines : List Str) (st : ESect × ErrorSections),
      st.1 ≠ .causes → st.2.causes = [] →
      (∀ l ∈ lines, containsSub "causes".data (pyLower (pyStrip l)) = false) →
      ((lines.foldl analyzeStep st).2).causes = [] := by
  intro lines
  induction lines with
  | nil => intro st h1 h2 _; exact h2
  | cons x xs ih =>
    intro st h1 h2 h3
    have hx := h3 x (List.mem_cons_self x xs)
    rw [List.foldl_cons]
    refine ih _ ?_ ?_ (fun l hl => h3 l (List.mem_cons_of_mem x hl)) <;>
      obtain ⟨s, acc⟩ := st <;>
      simp only [analyzeStep, hx, Bool.false_eq_true, if_false] <;>
      split_ifs <;>
      cases s <;>
      simp_all

/-- Fold invariant for the explanation section. -/
theorem analyzeFold_explanation_empty :
    ∀ (lines : List Str) (st : ESect × ErrorSections),
      st.1 ≠ .explanation → st.2.explanation = [] →
      (∀ l ∈ lines, containsSub "explanation".data (pyLower (pyStrip l)) = false) →
      ((lines.foldl analyzeStep st).2).explanation = [] := by
  intro lines
  induction lines with
  | nil => intro st h1 h2 _; exact h2
  | cons x xs ih =>
    intro st h1 h2 h3
    have hx := h3 x (List.mem_cons_self x xs)
    rw [List.foldl_cons]
    refine ih _ ?_ ?_ (fun l hl => h3 l (List.mem_cons_of_mem x hl)) <;>
      obtain ⟨s, acc⟩ := st <;>
      simp only [analyzeStep, hx, Bool.false_eq_true, if_false] <;>
      split_ifs <;>
      cases s <;>
      simp_all

/-- Fold invariant for the solutions section (keyword `solution`). -/
theorem analyzeFold_solutions_empty :
    ∀ (lines : List Str) (st : ESect × ErrorSections),
      st.1 ≠ .solutions → st.2.solutions = [] →
      (∀ l ∈ lines, containsSub "solution".data (pyLower (pyStrip l)) = false) →
      ((lines.foldl analyzeStep st).2).solutions = [] := by
  intro lines
  induction lines with
  | nil => intro st h1 h2 _; exact h2
  | cons x xs ih =>
    intro st h1 h2 h3
    have hx := h3 x (List.mem_cons_self x xs)
    rw [List.foldl_cons]
    refine ih _ ?_ ?_ (fun l hl => h3 l (List.mem_cons_of_mem x hl)) <;>
      obtain ⟨s, acc⟩ := st <;>
      simp only [analyzeStep, hx, Bool.false_eq_true, if_false] <;>
      split_ifs <;>
      cases s <;>
      simp_all

/-- Fold invariant for the prevention section. -/
theorem analyzeFold_prevention_empty :
    ∀ (lines : List Str) (st : ESect × ErrorSections),
      st.1 ≠ .prevention → st.2.prevention = [] →
      (∀ l ∈ lines, containsSub "prevention".data (pyLower (pyStrip l)) = false) →
      ((lines.foldl analyzeStep st).2).prevention = [] := by
  intro lines
  induction lines with
  | nil => intro st h1 h2 _; exact h2
  | cons x xs ih =>
    intro st h1 h2 h3
    have hx := h3 x (List.mem_cons_self x xs)
    rw [List.foldl_cons]
    refine ih _ ?_ ?_ (fun l hl => h3 l (List.mem_cons_of_mem x hl)) <;>
      obtain ⟨s, acc⟩ := st <;>
      simp only [analyzeStep, hx, Bool.false_eq_true, if_false] <;>
      split_ifs <;>
      cases s <;>
      simp_all

/-! ### Round-trip lemmas -/

theorem noEdgeSpace_of_cons {x : Char} {xs : Str} (h1 : isSpaceChar x = false)
    (h2 : (x :: xs).getLast?.all (fun c => !isSpaceChar c) = true) :
    noEdgeSpace (x :: xs) = true := by
  simp only [noEdgeSpace, List.head?]
  cases hl : (x :: xs).getLast? with
  | none => simp at hl
  | some c =>
    rw [hl] at h2
    simp_all

theorem getLast?_bulletLine {t : Str} (h : t ≠ []) :
    (bulletLine t).getLast? = t.getLast? := by
  cases t with
  | nil => exact absurd rfl h
  | cons c cs =>
    simp only [bulletLine]
    rw [List.getLast?_cons_cons, List.getLast?_cons_cons]

theorem noEdgeSpace_bulletLine {t : Str} (ht : noEdgeSpace t = true) (hne : t ≠ []) :
    noEdgeSpace (bulletLine t) = true := by
  have hdash : isSpaceChar '-' = false := by decide
  refine noEdgeSpace_of_cons (by simpa [bulletLine] using hdash) ?_
  have : (bulletLine t).getLast? = t.getLast? := getLast?_bulletLine hne
  rw [show ('-' :: ' ' :: t : Str).getLast? = t.getLast? from this]
  cases t with
  | nil => exact absurd rfl hne
  | cons c cs =>
    simp only [noEdgeSpace, List.head?, Bool.and_eq_true] at ht
    cases hl : (c :: cs).getLast? with
    | none => simp at hl
    | some y => rw [hl] at ht; simpa using ht.2

theorem pyStrip_bulletLine {t : Str} (ht : noEdgeSpace t = true) (hne : t ≠ []) :
    pyStrip (bulletLine t) = bulletLine t :=
  pyStrip_eq_self (noEdgeSpace_bulletLine ht hne)

/-- Stripping ignores one trailing space. -/
theorem pyStrip_append_space (x : Str) : pyStrip (x ++ [' ']) = pyStrip x := by
  have hsp : isSpaceChar ' ' = true := by decide
  simp only [pyStrip, pyStripWith]
  rw [List.dropWhile_append]
  cases hd : (x.dropWhile isSpaceChar).isEmpty with
  | true =>
    simp only [hd, if_true]
    have hx : x.dropWhile isSpaceChar = [] := by simpa using hd
    simp [List.dropWhile, hsp, hx]
  | false =>
    simp only [hd, Bool.false_eq_true, if_false]
    rw [List.reverse_append]
    simp [List.dropWhile, hsp]

theorem strStartsWith_cons_ne {c d : Char} (p l : Str) (h : (d == c) = false) :
    strStartsWith (d :: p) (c :: l) = false := by
  simp [strStartsWith, h]

/-- A line starting with a dash is no section header. -/
theorem sectionOfHeader_of_dash (rest : Str) : sectionOfHeader ('-' :: rest) = none := by
  have h1 : strStartsWith "platforms:".data ('-' :: rest) = false := by
    rw [show "platforms:".data = 'p' :: "latforms:".data from rfl]
    exact strStartsWith_cons_ne _ _ (by decide)
  have h2 : strStartsWith "resources:".data ('-' :: rest) = false := by
    rw [show "resources:".data = 'r' :: "esources:".data from rfl]
    exact strStartsWith_cons_ne _ _ (by decide)
  have h3 : strStartsWith "action:".data ('-' :: rest) = false := by
    rw [show "action:".data = 'a' :: "ction:".data from rfl]
    exact strStartsWith_cons_ne _ _ (by decide)
  have h4 : strStartsWith "parameters:".data ('-' :: rest) = false := by
    rw [show "parameters:".data = 'p' :: "arameters:".data from rfl]
    exact strStartsWith_cons_ne _ _ (by decide)
  simp [sectionOfHeader, h1, h2, h3, h4]

theorem pyLower_bulletLine (t : Str) :
    pyLower (bulletLine t) = '-' :: ' ' :: pyLower t := by
  simp only [bulletLine, pyLower, List.map_cons]
  rw [show Char.toLower '-' = '-' from by decide, show Char.toLower ' ' = ' ' from by decide]

theorem parseStep_header_platforms (st : Sect × PCommand) :
    parseStep st "Platforms:".data = (Sect.platforms, st.2) := rfl

theorem parseStep_header_resources (st : Sect × PCommand) :
    parseStep st "Resources:".data = (Sect.resources, st.2) := rfl

theorem parseStep_header_action (st : Sect × PCommand) :
    parseStep st "Action:".data = (Sect.action, st.2) := rfl

theorem parseStep_header_parameters (st : Sect × PCommand) :
    parseStep st "Parameters:".data = (Sect.parameters, st.2) := rfl

theorem isEmpty_false_of_ne_nil {t : Str} (h : t ≠ []) : t.isEmpty = false := by
  cases t with
  | nil => exact absurd rfl h
  | cons c cs => rfl

/-- A clean bulleted token in the `Platforms` section appends the token. -/
theorem parseStep_platforms_bullet (acc : PCommand) (t : Str)
    (ht : noEdgeSpace t = true) (hne : t ≠ []) :
    parseStep (Sect.platforms, acc) (bulletLine t)
      = (Sect.platforms, { acc with platforms := acc.platforms ++ [t] }) := by
  have hstrip : pyStrip ('-' :: ' ' :: t) = '-' :: ' ' :: t := pyStrip_bulletLine ht hne
  have hlow : pyLower ('-' :: ' ' :: t) = '-' :: ' ' :: pyLower t := pyLower_bulletLine t
  have hc : pyStrip (' ' :: t) = t := by rw [pyStrip_cons_space, pyStrip_eq_self ht]
  simp only [parseStep, bulletLine, hstrip, hlow, sectionOfHeader_of_dash,
    List.isEmpty_cons, Bool.false_eq_true, if_false, hc, isEmpty_false_of_ne_nil hne]

/-- A clean bulleted token in the `Resources` section appends its lowering. -/
theorem parseStep_resources_bullet (acc : PCommand) (t : Str)
    (ht : noEdgeSpace t = true) (hne : t ≠ []) :
    parseStep (Sect.resources, acc) (bulletLine t)
      = (Sect.resources, { acc with resources := acc.resources ++ [pyLower t] }) := by
  have hstrip : pyStrip ('-' :: ' ' :: t) = '-' :: ' ' :: t := pyStrip_bulletLine ht hne
  have hlow : pyLower ('-' :: ' ' :: t) = '-' :: ' ' :: pyLower t := pyLower_bulletLine t
  have hc : pyStrip (' ' :: t) = t := by rw [pyStrip_cons_space, pyStrip_eq_self ht]
  simp only [parseStep, bulletLine, hstrip, hlow, sectionOfHeader_of_dash,
    List.isEmpty_cons, Bool.false_eq_true, if_false, hc, isEmpty_false_of_ne_nil hne]

/-- A clean bulleted token in the `Action` section replaces the action. -/
theorem parseStep_action_bullet (acc : PCommand) (t : Str)
    (ht : noEdgeSpace t = true) (hne : t ≠ []) :
    parseStep (Sect.action, acc) (bulletLine t)
      = (Sect.action, { acc with action := t }) := by
  have hstrip : pyStrip ('-' :: ' ' :: t) = '-' :: ' ' :: t := pyStrip_bulletLine ht hne
  have hlow : pyLower ('-' :: ' ' :: t) = '-' :: ' ' :: pyLower t := pyLower_bulletLine t
  have hc : pyStrip (' ' :: t) = t := by rw [pyStrip_cons_space, pyStrip_eq_self ht]
  simp only [parseStep, bulletLine, hstrip, hlow, sectionOfHeader_of_dash,
    List.isEmpty_cons, Bool.false_eq_true, if_false, hc, isEmpty_false_of_ne_nil hne]

theorem noEdgeSpace_head {c : Char} {cs : Str} (h : noEdgeSpace (c :: cs) = true) :
    isSpaceChar c = false := by
  simp only [noEdgeSpace, List.head?, Bool.and_eq_true, Bool.not_eq_true'] at h
  exact h.1

theorem noEdgeSpace_last {l : Str} (h : noEdgeSpace l = true) :
    l.getLast?.all (fun c => !isSpaceChar c) = true := by
  simp only [noEdgeSpace, Bool.and_eq_true] at h
  cases hl : l.getLast? with
  | none => rfl
  | some c => rw [hl] at h; simpa using h.2

/-- Appending a chunk with a clean last character to a clean non-empty key
keeps the edges clean. -/
theorem noEdgeSpace_append_of {k rest : Str} (hk : noEdgeSpace k = true) (hkne : k ≠ [])
    (hlast : rest.getLast?.all (fun c => !isSpaceChar c) = true) (hrne : rest ≠ []) :
    noEdgeSpace (k ++ rest) = true := by
  cases k with
  | nil => exact absurd rfl hkne
  | cons c cs =>
    rw [List.cons_append]
    refine noEdgeSpace_of_cons (noEdgeSpace_head hk) ?_
    rw [← List.cons_append, List.getLast?_append]
    cases hr : rest.getLast? with
    | none => exact absurd (List.getLast?_eq_none_iff.mp hr) hrne
    | some z => rw [hr] at hlast; simpa using hlast

theorem splitFirstAt_key {k : Str} (rest : Str) (h : hasChar ':' k = false) :
    splitFirstAt ':' (k ++ ':' :: rest) = some (k, rest) := by
  induction k with
  | nil => simp [splitFirstAt]
  | cons x xs ih =>
    simp only [hasChar, Bool.or_eq_false_iff] at h
    simp [splitFirstAt, h.1, ih h.2]

theorem hasChar_sep_of_append (k rest : Str) :
    hasChar ':' (k ++ ':' :: rest) = true := by
  rw [hasChar_append]
  simp [hasChar]

/-- Stripping all double quotes from a wrapped clean item recovers it. -/
theorem pyStripQuotes_wrap {v : Str}
    (hh : (v.head? == some dquoteChar) = false)
    (hl : (v.getLast? == some dquoteChar) = false) :
    pyStripQuotes (dquoteChar :: (v ++ [dquoteChar])) = v := by
  simp only [pyStripQuotes, pyStripWith, List.dropWhile]
  rw [show (dquoteChar == dquoteChar) = true from by decide]
  cases v with
  | nil => simp [List.dropWhile, show (dquoteChar == dquoteChar) = true from by decide]
  | cons c cs =>
    have hc : (c == dquoteChar) = false := by
      simp only [List.head?, Option.some.injEq] at hh
      simpa using hh
    rw [List.cons_append, List.dropWhile_cons, hc]
    simp only [Bool.false_eq_true, if_false]
    rw [show (c :: (cs ++ [dquoteChar]) : Str) = (c :: cs) ++ [dquoteChar] from rfl,
      List.reverse_concat, List.dropWhile_cons,
      show (dquoteChar == dquoteChar) = true from by decide, if_pos rfl]
    cases hrev : (c :: cs).reverse with
    | nil => simp at hrev
    | cons y ys =>
      have hy : (c :: cs).getLast? = some y := by
        rw [← List.head?_reverse, hrev]; rfl
      have hyq : (y == dquoteChar) = false := by
        rw [hy] at hl; simpa using hl
      rw [List.dropWhile_cons, hyq]
      simp only [Bool.false_eq_true, if_false]
      rw [← hrev, List.reverse_reverse]

theorem cleanListItem_comma {v : Str} (h : cleanListItem v = true) :
    hasChar ',' v = false := by
  simp only [cleanListItem, Bool.and_eq_true, Bool.not_eq_true'] at h
  exact h.1.1.1

theorem cleanListItem_head {v : Str} (h : cleanListItem v = true) :
    (v.head? == some dquoteChar) = false := by
  simp only [cleanListItem, Bool.and_eq_true, Bool.not_eq_true'] at h
  exact h.1.2

theorem cleanListItem_last {v : Str} (h : cleanListItem v = true) :
    (v.getLast? == some dquoteChar) = false := by
  simp only [cleanListItem, Bool.and_eq_true, Bool.not_eq_true'] at h
  exact h.2

theorem hasChar_quoted_chunk {v : Str} (hv : hasChar ',' v = false) :
    hasChar ',' (dquoteChar :: (v ++ [dquoteChar])) = false := by
  simp [hasChar, hasChar_append, hv, show (dquoteChar == ',') = false from by decide]

/-- A quoted clean item survives the strip-then-unquote of line 95. -/
theorem stripItem_quoted {v : Str} (h : cleanListItem v = true) :
    pyStripQuotes (pyStrip (dquoteChar :: (v ++ [dquoteChar]))) = v := by
  have hstrip : pyStrip (dquoteChar :: (v ++ [dquoteChar]))
      = dquoteChar :: (v ++ [dquoteChar]) := by
    refine pyStrip_eq_self (noEdgeSpace_of_cons (by decide) ?_)
    rw [show (dquoteChar :: (v ++ [dquoteChar]) : Str)
        = (dquoteChar :: v) ++ [dquoteChar] from rfl, List.getLast?_concat]
    decide
  rw [hstrip]
  exact pyStripQuotes_wrap (cleanListItem_head h) (cleanListItem_last h)

theorem parseBracketItems_cons_space (s : Str) :
    parseBracketItems (' ' :: s) = parseBracketItems s := by
  unfold parseBracketItems
  cases hs : splitOnChar ',' s with
  | nil => exact absurd hs (splitOnChar_ne_nil ',' s)
  | cons h t =>
    rw [show splitOnChar ',' (' ' :: s) = (' ' :: h) :: t from by
      simp [splitOnChar, hs, show (' ' == ',') = false from by decide]]
    simp [pyStrip_cons_space]

/-- Splitting the rendered bracket body on commas and unquoting each piece
recovers the original items. -/
theorem parseBracketItems_joinQuoted :
    ∀ vs : List Str, vs ≠ [] → (∀ v ∈ vs, cleanListItem v = true) →
      parseBracketItems (joinQuoted vs) = vs := by
  intro vs
  induction vs with
  | nil => intro h _; exact absurd rfl h
  | cons v vs ih =>
    intro _ hclean
    have hv := hclean v (List.mem_cons_self v vs)
    cases vs with
    | nil =>
      unfold parseBracketItems
      rw [show joinQuoted [v] = dquoteChar :: (v ++ [dquoteChar]) from rfl,
        splitOnChar_of_not_has (hasChar_quoted_chunk (cleanListItem_comma hv))]
      simp [stripItem_quoted hv]
    | cons w ws =>
      have hchunk := hasChar_quoted_chunk (cleanListItem_comma hv)
      have htail : (splitOnChar ',' (' ' :: joinQuoted (w :: ws))).map
          (fun x => pyStripQuotes (pyStrip x)) = w :: ws := by
        rw [show (splitOnChar ',' (' ' :: joinQuoted (w :: ws))).map
              (fun x => pyStripQuotes (pyStrip x))
            = parseBracketItems (' ' :: joinQuoted (w :: ws)) from rfl,
          parseBracketItems_cons_space]
        exact ih (by simp) (fun u hu => hclean u (List.mem_cons_of_mem v hu))
      rw [show joinQuoted (v :: w :: ws)
          = (dquoteChar :: (v ++ [dquoteChar])) ++ ',' :: ' ' :: joinQuoted (w :: ws) from rfl]
      unfold parseBracketItems
      rw [splitOnChar_append_sep _ hchunk, List.map_cons, htail, stripItem_quoted hv]

theorem ne_nil_of_isEmpty_eq_false {α : Type} {l : List α} (h : l.isEmpty = false) :
    l ≠ [] := by
  cases l <;> simp_all

/-- A clean bulleted `key: value` line in the `Parameters` section stores
exactly the rendered parameter. -/
theorem parseStep_param_bullet (acc : PCommand) (k : Str) (v : PValue)
    (hk : cleanKey k = true) (hv : cleanValue v = true) :
    parseStep (Sect.parameters, acc) (paramLine (k, v))
      = (Sect.parameters, { acc with parameters := pyDictSet acc.parameters k v }) := by
  have hk0 : k ≠ [] ∧ noEdgeSpace k = true ∧ hasChar ':' k = false := by
    simp only [cleanKey, cleanToken, Bool.and_eq_true, Bool.not_eq_true'] at hk
    exact ⟨ne_nil_of_isEmpty_eq_false hk.1.1.1, hk.1.1.2, hk.2⟩
  obtain ⟨hkne, hkspace, hkcolon⟩ := hk0
  have hkeystrip : pyStrip k = k := pyStrip_eq_self hkspace
  cases v with
  | scalar s =>
    have hs : noEdgeSpace s = true ∧ bracketShaped s = false := by
      simp only [cleanValue, cleanScalar, Bool.and_eq_true, Bool.not_eq_true'] at hv
      exact ⟨hv.1.1, hv.2⟩
    cases s with
    | nil =>
      have hk1 : noEdgeSpace (k ++ [':']) = true := by
        refine noEdgeSpace_append_of hkspace hkne (by decide) (by simp)
      have hstrip : pyStrip (paramLine (k, PValue.scalar []))
          = '-' :: ' ' :: (k ++ [':']) := by
        rw [show paramLine (k, PValue.scalar [])
            = ('-' :: ' ' :: (k ++ [':'])) ++ [' '] from by simp [paramLine, paramValueText, bulletLine],
          pyStrip_append_space]
        exact pyStrip_bulletLine hk1 (by simp)
      have hlow : pyLower ('-' :: ' ' :: (k ++ [':'])) = '-' :: ' ' :: pyLower (k ++ [':']) :=
        pyLower_bulletLine _
      have hcont : pyStrip (' ' :: (k ++ [':'])) = k ++ [':'] := by
        rw [pyStrip_cons_space]; exact pyStrip_eq_self hk1
      have hhas : hasChar ':' (k ++ [':']) = true := hasChar_sep_of_append k []
      have hsplit : splitFirstAt ':' (k ++ [':']) = some (k, []) := splitFirstAt_key [] hkcolon
      simp only [parseStep, hstrip, hlow, sectionOfHeader_of_dash, List.isEmpty_cons,
        Bool.false_eq_true, if_false, hcont, hhas, if_true, hsplit, hkeystrip]
      rfl
    | cons c cs =>
      have hTspace : noEdgeSpace (k ++ ':' :: ' ' :: (c :: cs)) = true := by
        refine noEdgeSpace_append_of hkspace hkne ?_ (by simp)
        rw [List.getLast?_cons_cons, List.getLast?_cons_cons]
        exact noEdgeSpace_last hs.1
      have hstrip : pyStrip ('-' :: ' ' :: (k ++ ':' :: ' ' :: (c :: cs)))
          = '-' :: ' ' :: (k ++ ':' :: ' ' :: (c :: cs)) :=
        pyStrip_bulletLine hTspace (by simp)
      have hlow : pyLower ('-' :: ' ' :: (k ++ ':' :: ' ' :: (c :: cs)))
          = '-' :: ' ' :: pyLower (k ++ ':' :: ' ' :: (c :: cs)) :=
        pyLower_bulletLine _
      have hcont : pyStrip (' ' :: (k ++ ':' :: ' ' :: (c :: cs)))
          = k ++ ':' :: ' ' :: (c :: cs) := by
        rw [pyStrip_cons_space]; exact pyStrip_eq_self hTspace
      have hval : pyStrip (' ' :: (c :: cs)) = c :: cs := by
        rw [pyStrip_cons_space]; exact pyStrip_eq_self hs.1
      have hhas : hasChar ':' (k ++ ':' :: ' ' :: (c :: cs)) = true := hasChar_sep_of_append _ _
      have hsplit : splitFirstAt ':' (k ++ ':' :: ' ' :: (c :: cs))
          = some (k, ' ' :: (c :: cs)) := splitFirstAt_key _ hkcolon
      simp only [parseStep, paramLine, paramValueText, bulletLine, hstrip, hlow,
        sectionOfHeader_of_dash, List.isEmpty_cons, Bool.false_eq_true, if_false,
        hcont, hhas, if_true, hsplit, hkeystrip, hval, hs.2]
  | listVal vs =>
    have hvs : vs ≠ [] ∧ ∀ u ∈ vs, cleanListItem u = true := by
      simp only [cleanValue, Bool.and_eq_true, Bool.not_eq_true', List.all_eq_true] at hv
      exact ⟨ne_nil_of_isEmpty_eq_false hv.1, hv.2⟩
    have hJlast : ('[' :: (joinQuoted vs ++ [']']) : Str).getLast? = some ']' := by
      rw [show ('[' :: (joinQuoted vs ++ [']']) : Str)
          = ('[' :: joinQuoted vs) ++ [']'] from rfl, List.getLast?_concat]
    have hvtspace : noEdgeSpace ('[' :: (joinQuoted vs ++ [']'])) = true := by
      refine noEdgeSpace_of_cons (by decide) ?_
      rw [hJlast]; decide
    have hTspace : noEdgeSpace (k ++ ':' :: ' ' :: ('[' :: (joinQuoted vs ++ [']']))) = true := by
      refine noEdgeSpace_append_of hkspace hkne ?_ (by simp)
      rw [List.getLast?_cons_cons, List.getLast?_cons_cons, hJlast]; decide
    have hstrip : pyStrip ('-' :: ' ' :: (k ++ ':' :: ' ' :: ('[' :: (joinQuoted vs ++ [']']))))
        = '-' :: ' ' :: (k ++ ':' :: ' ' :: ('[' :: (joinQuoted vs ++ [']']))) :=
      pyStrip_bulletLine hTspace (by simp)
    have hlow : pyLower ('-' :: ' ' :: (k ++ ':' :: ' ' :: ('[' :: (joinQuoted vs ++ [']']))))
        = '-' :: ' ' :: pyLower (k ++ ':' :: ' ' :: ('[' :: (joinQuoted vs ++ [']']))) :=
      pyLower_bulletLine _
    have hcont : pyStrip (' ' :: (k ++ ':' :: ' ' :: ('[' :: (joinQuoted vs ++ [']']))))
        = k ++ ':' :: ' ' :: ('[' :: (joinQuoted vs ++ [']'])) := by
      rw [pyStrip_cons_space]; exact pyStrip_eq_self hTspace
    have hval : pyStrip (' ' :: ('[' :: (joinQuoted vs ++ [']'])))
        = '[' :: (joinQuoted vs ++ [']']) := by
      rw [pyStrip_cons_space]; exact pyStrip_eq_self hvtspace
    have hhas : hasChar ':' (k ++ ':' :: ' ' :: ('[' :: (joinQuoted vs ++ [']']))) = true :=
      hasChar_sep_of_append _ _
    have hsplit : splitFirstAt ':' (k ++ ':' :: ' ' :: ('[' :: (joinQuoted vs ++ [']'])))
        = some (k, ' ' :: ('[' :: (joinQuoted vs ++ [']']))) := splitFirstAt_key _ hkcolon
    have hbr : bracketShaped ('[' :: (joinQuoted vs ++ [']'])) = true := by
      simp [bracketShaped, hJlast]
    have hdrop : dropEnds ('[' :: (joinQuoted vs ++ [']'])) = joinQuoted vs := by
      simp [dropEnds]
    have hitems : parseBracketItems (joinQuoted vs) = vs :=
      parseBracketItems_joinQuoted vs hvs.1 hvs.2
    simp only [parseStep, paramLine, paramValueText, bulletLine, hstrip, hlow,
      sectionOfHeader_of_dash, List.isEmpty_cons, Bool.false_eq_true, if_false,
      hcont, hhas, if_true, hsplit, hkeystrip, hval, hbr, hdrop, hitems]

theorem cleanToken_parts {t : Str} (h : cleanToken t = true) :
    t ≠ [] ∧ noEdgeSpace t = true := by
  simp only [cleanToken, Bool.and_eq_true, Bool.not_eq_true'] at h
  exact ⟨ne_nil_of_isEmpty_eq_false h.1.1, h.1.2⟩

theorem foldl_platform_bullets :
    ∀ (ps : List Str) (acc : PCommand), (∀ p ∈ ps, cleanToken p = true) →
      (ps.map bulletLine).foldl parseStep (Sect.platforms, acc)
        = (Sect.platforms, { acc with platforms := acc.platforms ++ ps }) := by
  intro ps
  induction ps with
  | nil => intro acc _; simp
  | cons p ps ih =>
    intro acc h
    have hp := cleanToken_parts (h p (List.mem_cons_self p ps))
    rw [List.map_cons, List.foldl_cons, parseStep_platforms_bullet acc p hp.2 hp.1,
      ih _ (fun q hq => h q (List.mem_cons_of_mem p hq))]
    simp

theorem foldl_resources_bullets :
    ∀ (rs : List Str) (acc : PCommand),
      (∀ r ∈ rs, cleanToken r = true ∧ pyLower r = r) →
      (rs.map bulletLine).foldl parseStep (Sect.resources, acc)
        = (Sect.resources, { acc with resources := acc.resources ++ rs }) := by
  intro rs
  induction rs with
  | nil => intro acc _; simp
  | cons r rs ih =>
    intro acc h
    have hr := h r (List.mem_cons_self r rs)
    have hp := cleanToken_parts hr.1
    rw [List.map_cons, List.foldl_cons, parseStep_resources_bullet acc r hp.2 hp.1, hr.2,
      ih _ (fun q hq => h q (List.mem_cons_of_mem r hq))]
    simp

theorem foldl_param_bullets :
    ∀ (kvs : List (Str × PValue)) (acc : PCommand),
      (∀ kv ∈ kvs, cleanKey kv.1 = true ∧ cleanValue kv.2 = true) →
      (kvs.map paramLine).foldl parseStep (Sect.parameters, acc)
        = (Sect.parameters, { acc with parameters := kvs.foldl (fun d kv => pyDictSet d kv.1 kv.2) acc.parameters }) := by
  intro kvs
  induction kvs with
  | nil => intro acc _; simp
  | cons kv kvs ih =>
    intro acc h
    obtain ⟨k, v⟩ := kv
    have hkv := h (k, v) (List.mem_cons_self (k, v) kvs)
    rw [List.map_cons, List.foldl_cons, parseStep_param_bullet acc k v hkv.1 hkv.2,
      ih _ (fun q hq => h q (List.mem_cons_of_mem (k, v) hq))]
    simp

theorem pyMem_append (s : Str) (a b : List Str) :
    pyMem s (a ++ b) = (pyMem s a || pyMem s b) := by
  induction a with
  | nil => simp [pyMem]
  | cons x xs ih => simp [pyMem, ih, Bool.or_assoc]

/-- Assigning a fresh key into a Python dict appends it. -/
theorem pyDictSet_fresh {α : Type} (d : List (Str × α)) (k : Str) (v : α)
    (h : pyMem k (d.map Prod.fst) = false) : pyDictSet d k v = d ++ [(k, v)] := by
  induction d with
  | nil => rfl
  | cons kv rest ih =>
    obtain ⟨kk, vv⟩ := kv
    simp only [List.map_cons, pyMem, Bool.or_eq_false_iff, decide_eq_false_iff_not] at h
    simp [pyDictSet, h.1, ih h.2]

/-- Assigning pairwise-distinct fresh keys in order appends them in order. -/
theorem foldl_pyDictSet_fresh :
    ∀ (kvs : List (Str × PValue)) (d : List (Str × PValue)),
      keysDistinct (kvs.map Prod.fst) = true →
      (∀ kv ∈ kvs, pyMem kv.1 (d.map Prod.fst) = false) →
      kvs.foldl (fun d0 kv => pyDictSet d0 kv.1 kv.2) d = d ++ kvs := by
  intro kvs
  induction kvs with
  | nil => intro d _ _; simp
  | cons kv kvs ih =>
    intro d hdist hfresh
    simp only [List.map_cons, keysDistinct, Bool.and_eq_true, Bool.not_eq_true'] at hdist
    rw [List.foldl_cons, pyDictSet_fresh d kv.1 kv.2 (hfresh kv (List.mem_cons_self kv kvs)),
      ih (d ++ [kv]) hdist.2 ?_]
    · simp
    · intro kv2 h2
      rw [List.map_append, pyMem_append]
      simp only [Bool.or_eq_false_iff]
      refine ⟨hfresh kv2 (List.mem_cons_of_mem kv h2), ?_⟩
      have hmem : kv2.1 ∈ kvs.map Prod.fst := List.mem_map_of_mem Prod.fst h2
      have hne : kv.1 ≠ kv2.1 := by
        intro he
        have hco := pyMem_iff.mpr (he ▸ hmem)
        rw [hdist.1] at hco
        exact Bool.noConfusion hco
      simp [pyMem, hne]

theorem splitOnChar_joinLines :
    ∀ ls : List Str, ls ≠ [] → (∀ l ∈ ls, hasChar '\n' l = false) →
      splitOnChar '\n' (joinLines ls) = ls := by
  intro ls
  induction ls with
  | nil => intro h _; exact absurd rfl h
  | cons x xs ih =>
    intro _ h
    cases xs with
    | nil =>
      rw [show joinLines [x] = x from rfl]
      exact splitOnChar_of_not_has (h x (List.mem_cons_self x []))
    | cons y ys =>
      rw [show joinLines (x :: y :: ys) = x ++ '\n' :: joinLines (y :: ys) from rfl,
        splitOnChar_append_sep _ (h x (List.mem_cons_self x (y :: ys))),
        ih (by simp) (fun l hl => h l (List.mem_cons_of_mem x hl))]

theorem hasChar_newline_bullet {t : Str} (h : hasChar '\n' t = false) :
    hasChar '\n' (bulletLine t) = false := by
  simp [bulletLine, hasChar, h, show ('-' == '\n') = false from by decide,
    show (' ' == '\n') = false from by decide]

theorem cleanListItem_newline {v : Str} (h : cleanListItem v = true) :
    hasChar '\n' v = false := by
  simp only [cleanListItem, Bool.and_eq_true, Bool.not_eq_true'] at h
  exact h.1.1.2

theorem joinQuoted_no_newline :
    ∀ vs : List Str, (∀ v ∈ vs, hasChar '\n' v = false) →
      hasChar '\n' (joinQuoted vs) = false := by
  intro vs
  induction vs with
  | nil => intro _; rfl
  | cons v vs ih =>
    intro h
    have hv := h v (List.mem_cons_self v vs)
    cases vs with
    | nil =>
      rw [show joinQuoted [v] = dquoteChar :: (v ++ [dquoteChar]) from rfl]
      simp [hasChar, hasChar_append, hv, show (dquoteChar == '\n') = false from by decide]
    | cons w ws =>
      rw [show joinQuoted (v :: w :: ws)
          = (dquoteChar :: (v ++ [dquoteChar])) ++ ',' :: ' ' :: joinQuoted (w :: ws) from rfl]
      rw [hasChar_append]
      simp [hasChar, hasChar_append, hv,
        ih (fun u hu => h u (List.mem_cons_of_mem v hu)),
        show (dquoteChar == '\n') = false from by decide,
        show (',' == '\n') = false from by decide,
        show (' ' == '\n') = false from by decide]

theorem paramValueText_no_newline {v : PValue} (h : cleanValue v = true) :
    hasChar '\n' (paramValueText v) = false := by
  cases v with
  | scalar s =>
    simp only [cleanValue, cleanScalar, Bool.and_eq_true, Bool.not_eq_true'] at h
    exact h.1.2
  | listVal vs =>
    have hvs : ∀ u ∈ vs, cleanListItem u = true := by
      simp only [cleanValue, Bool.and_eq_true, List.all_eq_true] at h
      exact h.2
    rw [show paramValueText (PValue.listVal vs) = '[' :: (joinQuoted vs ++ [']']) from rfl]
    simp [hasChar, hasChar_append,
      joinQuoted_no_newline vs (fun u hu => cleanListItem_newline (hvs u hu)),
      show ('[' == '\n') = false from by decide,
      show (']' == '\n') = false from by decide]

theorem cleanCommand_parts {cmd : PCommand} (h : cleanCommand cmd = true) :
    (∀ p ∈ cmd.platforms, cleanToken p = true)
    ∧ (∀ r ∈ cmd.resources, cleanToken r = true ∧ pyLower r = r)
    ∧ cleanAction cmd.action = true
    ∧ (∀ kv ∈ cmd.parameters, cleanKey kv.1 = true ∧ cleanValue kv.2 = true)
    ∧ keysDistinct (cmd.parameters.map Prod.fst) = true := by
  simp only [cleanCommand, Bool.and_eq_true, List.all_eq_true] at h
  refine ⟨fun p hp => h.1.1.1.1 p hp, fun r hr => ?_, h.1.1.2, fun kv hkv => ?_, h.2⟩
  · have hc := h.1.1.1.2 r hr
    simp only [Bool.and_eq_true, beq_iff_eq] at hc
    exact hc
  · have hc := h.1.2 kv hkv
    simp only [Bool.and_eq_true] at hc
    exact hc

theorem cleanToken_newline {t : Str} (h : cleanToken t = true) :
    hasChar '\n' t = false := by
  simp only [cleanToken, Bool.and_eq_true, Bool.not_eq_true'] at h
  exact h.2

theorem cleanKey_newline {k : Str} (h : cleanKey k = true) :
    hasChar '\n' k = false := by
  simp only [cleanKey, Bool.and_eq_true] at h
  exact cleanToken_newline h.1

/-- Every rendered line of a clean command is newline free. -/
theorem formatLines_no_newline (cmd : PCommand) (h : cleanCommand cmd = true) :
    ∀ l ∈ formatLines cmd, hasChar '\n' l = false := by
  obtain ⟨hplat, hres, hact, hparams, _⟩ := cleanCommand_parts h
  unfold formatLines
  refine List.forall_mem_append.mpr ⟨List.forall_mem_append.mpr
    ⟨List.forall_mem_append.mpr ⟨?_, ?_⟩, ?_⟩, ?_⟩
  · refine List.forall_mem_cons.mpr ⟨by decide, ?_⟩
    intro l hl
    obtain ⟨p, hp, rfl⟩ := List.mem_map.mp hl
    exact hasChar_newline_bullet (cleanToken_newline (hplat p hp))
  · refine List.forall_mem_cons.mpr ⟨by decide, ?_⟩
    intro l hl
    obtain ⟨r, hr, rfl⟩ := List.mem_map.mp hl
    exact hasChar_newline_bullet (cleanToken_newline (hres r hr).1)
  · refine List.forall_mem_cons.mpr ⟨by decide, ?_⟩
    intro l hl
    cases hae : cmd.action.isEmpty with
    | true => rw [hae] at hl; simp at hl
    | false =>
      rw [hae] at hl
      simp only [Bool.false_eq_true, if_false, List.mem_singleton] at hl
      subst hl
      have hn : hasChar '\n' cmd.action = false := by
        simp only [cleanAction, Bool.and_eq_true, Bool.not_eq_true'] at hact
        exact hact.2
      exact hasChar_newline_bullet hn
  · refine List.forall_mem_cons.mpr ⟨by decide, ?_⟩
    intro l hl
    obtain ⟨kv, hkv, rfl⟩ := List.mem_map.mp hl
    have hk := hparams kv hkv
    refine hasChar_newline_bullet ?_
    rw [hasChar_append]
    simp [hasChar, cleanKey_newline hk.1, paramValueText_no_newline hk.2,
      show (':' == '\n') = false from by decide,
      show (' ' == '\n') = false from by decide]

/-! ## Claims -/

/-- C3 (code_bug): `AWSClient.get_cost_and_usage` does return the populated
period/total/by-category/by-location mapping, but
`AzureClient.get_cost_analysis`, on a successful cost query with one data
row, returns `None` rather than a populated result: its processing code is
unreachable (it sits inside the `except` block after that block's
unconditional `return`), so the claim's Azure half fails on the code. -/
theorem azure_cost_analysis_returns_none_on_rows :
    awsGetCostAndUsage "2026-09-12".data "2026-10-12".data
        (.ok [[⟨"AmazonEC2".data, "us-west-2".data, 5⟩]])
      = .ok { timeframe := "2026-09-12 to 2026-10-12".data
              startDate := "2026-09-12".data
              endDate := "2026-10-12".data
              currency := "USD".data
              totalCost := 5
              costsByService := [("AmazonEC2".data, 5)]
              costsByLocation := [("us-west-2".data, 5)] }
    ∧ azureGetCostAnalysis "LastMonth".data (.ok [⟨5, "Compute".data, "eastus".data⟩]) = none := by
  exact ⟨rfl, rfl⟩

/-- C7: in the JSON-schema interpretation path of
`services/llm_service.py`, a model output whose `json.loads` raises a
decode error yields the all-empty Structured Command
`(platforms:[], resources:[], action:"", parameters:)` instead of a
raised exception. -/
theorem json_decode_failure_falls_back_to_empty_command (e : Str) :
    processCloudQueryJson (.error e) = emptyCommandJson := rfl

/-- Witness for C7 at a concrete decode failure. -/
theorem json_decode_failure_falls_back_to_empty_command_witness :
    processCloudQueryJson (.error "Expecting value: line 1 column 1".data) = emptyCommandJson :=
  json_decode_failure_falls_back_to_empty_command "Expecting value: line 1 column 1".data

/-- C1 counterexample: with an Azure gateway whose
`list_virtual_machines` raises `boom` and the command
`(platforms:[Azure], resources:[VM, Storage], action:list)`, the sibling
`Storage` operation is never executed (the whole per-platform loop is
aborted), and the request does not even return an envelope: the second
Azure block repeats the raising call outside any inner `try`, so the
error escapes as an HTTP 500 — contradicting per-operation isolation. -/
theorem per_operation_isolation_fails :
    (executeCloudCommand { demoCtx with azure := some failVmAzureClient }
        ⟨["Azure".data], ["VM".data, "Storage".data], "list".data, []⟩).1
      = .error "boom".data
    ∧ (executeCloudCommand { demoCtx with azure := some failVmAzureClient }
        ⟨["Azure".data], ["VM".data, "Storage".data], "list".data, []⟩).2
      = [.azureListVirtualMachines none, .azureListVirtualMachines none]
    ∧ Call.azureListStorageAccounts ∉
        (executeCloudCommand { demoCtx with azure := some failVmAzureClient }
          ⟨["Azure".data], ["VM".data, "Storage".data], "list".data, []⟩).2 := by
  refine ⟨rfl, rfl, ?_⟩
  rw [show (executeCloudCommand { demoCtx with azure := some failVmAzureClient }
        ⟨["Azure".data], ["VM".data, "Storage".data], "list".data, []⟩).2
      = [.azureListVirtualMachines none, .azureListVirtualMachines none] from rfl]
  simp

/-- C1 amended: error handling is at platform-block granularity, for
every command naming both platforms with both gateways configured and
every gateway behaviour.  (1) When the first Azure block's resource
loop raises, the exception is caught at the block level: the block
yields the entries the loop had already produced followed by an
`azure_error` entry carrying `Error executing Azure command: <message>`.
(2) Symmetrically, an error in the AWS block's loop yields the entries
so far plus `aws_error` with `Error executing AWS command: <message>`.
(3, 4) A resource token whose operation raises ends its platform's
loop: the tokens after it are skipped (the loop result ignores them).
(5) Whenever the second, unwrapped Azure block does not itself raise,
the envelope is still returned, aggregating both platform blocks'
entries and calls — so one platform's loop failure never aborts the
other platform's block or the response. -/
theorem platform_block_error_isolation (ctx : Ctx) (cmd : Command)
    (az : AzureClientM) (aw : AwsClientM)
    (haz : ctx.azure = some az) (haw : ctx.aws = some aw)
    (hpA : pyMem "Azure".data cmd.platforms = true)
    (hpW : pyMem "AWS".data cmd.platforms = true) :
    (∀ es cs m, azureResourceLoop az cmd cmd.resources = (es, cs, some m) →
      azureFirstBlock ctx cmd
        = (es ++ [("azure_error".data, .str ("Error executing Azure command: ".data ++ m))], cs))
    ∧ (∀ es cs m, awsResourceLoop aw ctx cmd cmd.resources = (es, cs, some m) →
      awsBlock ctx cmd
        = (es ++ [("aws_error".data, .str ("Error executing AWS command: ".data ++ m))], cs))
    ∧ (∀ r rs, (azureResourceLoop az cmd [r]).2.2 ≠ none →
      azureResourceLoop az cmd (r :: rs) = azureResourceLoop az cmd [r])
    ∧ (∀ r rs, (awsResourceLoop aw ctx cmd [r]).2.2 ≠ none →
      awsResourceLoop aw ctx cmd (r :: rs) = awsResourceLoop aw ctx cmd [r])
    ∧ (∀ e3 t3, azureSecondBlock ctx cmd = (.ok e3, t3) →
      executeCloudCommand ctx cmd
        = (.ok { command_interpreted := cmd
                 results := ((azureFirstBlock ctx cmd).1 ++ (awsBlock ctx cmd).1 ++ e3).foldl (fun d kv => pyDictSet d kv.1 kv.2) []
                 available_services := ⟨true, true, ctx.llm⟩ },
           (azureFirstBlock ctx cmd).2 ++ (awsBlock ctx cmd).2 ++ t3)) := by
  refine ⟨?_, ?_, ?_, ?_, ?_⟩
  · intro es cs m h
    simp [azureFirstBlock, hpA, haz, h]
  · intro es cs m h
    simp [awsBlock, hpW, haw, h]
  · intro r rs hne
    exact azureResourceLoop_head_error_stops az cmd r rs hne
  · intro r rs hne
    exact awsResourceLoop_head_error_stops aw ctx cmd r rs hne
  · intro e3 t3 h3
    simp [executeCloudCommand, h3, haz, haw]

/-- C1 amended witness: all five parts instantiated at concrete
gateways — Azure storage raising `denied` (parts 1, 3, 5) and AWS cost
raising `denied` (parts 2, 4). -/
theorem platform_block_error_isolation_witness :
    azureFirstBlock { demoCtx with azure := some failStorageAzureClient }
        ⟨["Azure".data, "AWS".data], ["Storage".data, "cost".data], "list".data, []⟩
      = ([("azure_error".data, .str "Error executing Azure command: denied".data)],
         [.azureListStorageAccounts])
    ∧ awsBlock { demoCtx with aws := some failCostAwsClient }
        ⟨["Azure".data, "AWS".data], ["Storage".data, "cost".data], "list".data, []⟩
      = ([("aws_error".data, .str "Error executing AWS command: denied".data)],
         [.awsCostAndUsage "2026-09-12".data "2026-10-12".data])
    ∧ azureResourceLoop failStorageAzureClient
        ⟨["Azure".data, "AWS".data], ["Storage".data, "cost".data], "list".data, []⟩
        ["Storage".data, "cost".data]
      = azureResourceLoop failStorageAzureClient
        ⟨["Azure".data, "AWS".data], ["Storage".data, "cost".data], "list".data, []⟩
        ["Storage".data]
    ∧ awsResourceLoop failCostAwsClient { demoCtx with aws := some failCostAwsClient }
        ⟨["Azure".data, "AWS".data], ["Storage".data, "cost".data], "list".data, []⟩
        ["cost".data, "S3".data]
      = awsResourceLoop failCostAwsClient { demoCtx with aws := some failCostAwsClient }
        ⟨["Azure".data, "AWS".data], ["Storage".data, "cost".data], "list".data, []⟩
        ["cost".data]
    ∧ executeCloudCommand { demoCtx with azure := some failStorageAzureClient }
        ⟨["Azure".data, "AWS".data], ["Storage".data, "cost".data], "list".data, []⟩
      = (.ok { command_interpreted :=
                 ⟨["Azure".data, "AWS".data], ["Storage".data, "cost".data], "list".data, []⟩
               results :=
                 [("azure_error".data, .str "Error executing Azure command: denied".data),
                  ("aws_costs".data, Val.num 3)]
               available_services := ⟨true, true, true⟩ },
         [.azureListStorageAccounts, .awsCostAndUsage "2026-09-12".data "2026-10-12".data]) :=
  ⟨(platform_block_error_isolation
      { demoCtx with azure := some failStorageAzureClient }
      ⟨["Azure".data, "AWS".data], ["Storage".data, "cost".data], "list".data, []⟩
      failStorageAzureClient okAwsClient rfl rfl (by decide) (by decide)).1
      [] [.azureListStorageAccounts] "denied".data rfl,
   (platform_block_error_isolation
      { demoCtx with aws := some failCostAwsClient }
      ⟨["Azure".data, "AWS".data], ["Storage".data, "cost".data], "list".data, []⟩
      okAzureClient failCostAwsClient rfl rfl (by decide) (by decide)).2.1
      [] [.awsCostAndUsage "2026-09-12".data "2026-10-12".data] "denied".data rfl,
   (platform_block_error_isolation
      { demoCtx with azure := some failStorageAzureClient }
      ⟨["Azure".data, "AWS".data], ["Storage".data, "cost".data], "list".data, []⟩
      failStorageAzureClient okAwsClient rfl rfl (by decide) (by decide)).2.2.1
      "Storage".data ["cost".data] (by decide),
   (platform_block_error_isolation
      { demoCtx with aws := some failCostAwsClient }
      ⟨["Azure".data, "AWS".data], ["Storage".data, "cost".data], "list".data, []⟩
      okAzureClient failCostAwsClient rfl rfl (by decide) (by decide)).2.2.2.1
      "cost".data ["S3".data] (by decide),
   (platform_block_error_isolation
      { demoCtx with azure := some failStorageAzureClient }
      ⟨["Azure".data, "AWS".data], ["Storage".data, "cost".data], "list".data, []⟩
      failStorageAzureClient okAwsClient rfl rfl (by decide) (by decide)).2.2.2.2
      [] [] rfl⟩

/-- C4 counterexample: on the spec's exact Structured Command
`(platforms:[AWS], resources:[ec2], action:list,
parameters:(instance-state-name:[running]))` with a configured AWS
gateway, the dispatcher issues NO gateway call at all (empty trace) and
records nothing: the `EC2` branch compares against the capitalized token
`EC2`, which the lower-cased `ec2` does not match. -/
theorem ec2_scenario_issues_no_call :
    executeCloudCommand demoCtx
        ⟨["AWS".data], ["ec2".data], "list".data,
         [("instance-state-name".data, Val.listV [Val.str "running".data])]⟩
      = (.ok { command_interpreted :=
                 ⟨["AWS".data], ["ec2".data], "list".data,
                  [("instance-state-name".data, Val.listV [Val.str "running".data])]⟩
               results := []
               available_services := ⟨true, true, true⟩ }, []) := rfl

/-- C4 amended: the dispatcher's compute-instances branch fires on the
capitalized resource token `EC2` and reads the filter list from
`parameters[filters]`: for
`(platforms:[AWS], resources:[EC2], action:list, parameters:(filters:F))`
it invokes `list_ec2_instances` exactly once, with `filters = F`, and
records the result under `aws_ec2` in the envelope's data mapping. -/
theorem ec2_dispatch_capitalized_token_invoked_once (llm : Bool) (sd ed : Str) (F : Val)
    (f : Option Val → List (Str × List Val))
    (s3f : Except Str (List (Str × List Bucket)))
    (cuf : Str → Str → Except Str Val) (az : AzureClientM) :
    executeCloudCommand ⟨some ⟨fun o => .ok (f o), s3f, cuf⟩, some az, llm, sd, ed⟩
        ⟨["AWS".data], ["EC2".data], "list".data, [("filters".data, F)]⟩
      = (.ok { command_interpreted :=
                 ⟨["AWS".data], ["EC2".data], "list".data, [("filters".data, F)]⟩
               results :=
                 [("aws_ec2".data,
                   Val.dict [("regions".data, regionsVal (f (some F))),
                             ("total_instances".data, .num (totalCount (f (some F))))])]
               available_services := ⟨true, true, llm⟩ },
         [.awsListEc2Instances (some F)]) := rfl

/-- C4 amended witness at a concrete filter value. -/
theorem ec2_dispatch_capitalized_token_invoked_once_witness :
    executeCloudCommand
        ⟨some ⟨fun _ => .ok demoRegions, .ok [], fun _ _ => .ok (Val.num 3)⟩,
         some okAzureClient, true, "2026-09-12".data, "2026-10-12".data⟩
        ⟨["AWS".data], ["EC2".data], "list".data,
         [("filters".data, Val.listV [Val.str "running".data])]⟩
      = (.ok { command_interpreted :=
                 ⟨["AWS".data], ["EC2".data], "list".data,
                  [("filters".data, Val.listV [Val.str "running".data])]⟩
               results :=
                 [("aws_ec2".data,
                   Val.dict [("regions".data, regionsVal demoRegions),
                             ("total_instances".data, .num (totalCount demoRegions))])]
               available_services := ⟨true, true, true⟩ },
         [.awsListEc2Instances (some (Val.listV [Val.str "running".data]))]) :=
  ec2_dispatch_capitalized_token_invoked_once true "2026-09-12".data "2026-10-12".data
    (Val.listV [Val.str "running".data]) (fun _ => demoRegions) (.ok [])
    (fun _ _ => .ok (Val.num 3)) okAzureClient

/-- C5 counterexample: a caught operation-level error (Azure cost query
raising `denied`) is surfaced as the plain string entry
`azure_error = Error executing Azure command: denied`, with no
`analyze_error` invocation anywhere in the trace — the Error Analyst is
not consulted and no explanation sections are attached. -/
theorem caught_error_surfaced_without_analysis :
    executeCloudCommand { demoCtx with azure := some failCostAzureClient }
        ⟨["Azure".data], ["cost".data], "get".data, []⟩
      = (.ok { command_interpreted := ⟨["Azure".data], ["cost".data], "get".data, []⟩
               results :=
                 [("azure_error".data, .str "Error executing Azure command: denied".data)]
               available_services := ⟨true, true, true⟩ },
         [.azureCostAnalysis (Val.str "LastMonth".data)])
    ∧ ∀ o e p r, Call.analyzeErrorOp o e p r ∉
        (executeCloudCommand { demoCtx with azure := some failCostAzureClient }
          ⟨["Azure".data], ["cost".data], "get".data, []⟩).2 := by
  refine ⟨rfl, ?_⟩
  intro o e p r
  rw [show (executeCloudCommand { demoCtx with azure := some failCostAzureClient }
        ⟨["Azure".data], ["cost".data], "get".data, []⟩).2
      = [.azureCostAnalysis (Val.str "LastMonth".data)] from rfl]
  simp

/-- C10 counterexample: for platform Azure, resource `VM`, the action
`list status` (which contains `status`) and an empty parameter mapping,
the request does NOT raise: the `list` sub-branch is taken first in both
Azure blocks, `resource_group`/`vm_name` are never subscripted, and a
normal envelope is returned. -/
theorem status_action_with_list_does_not_raise :
    executeCloudCommand demoCtx ⟨["Azure".data], ["VM".data], "list status".data, []⟩
      = (.ok { command_interpreted := ⟨["Azure".data], ["VM".data], "list status".data, []⟩
               results :=
                 [("azure_vm".data,
                   Val.dict [("regions".data, regionsVal demoRegions),
                             ("total_vms".data, .num 1)]),
                  ("azure_vms".data, regionsVal demoRegions)]
               available_services := ⟨true, true, true⟩ },
         [.azureListVirtualMachines none, .azureListVirtualMachines none]) := rfl

/-- C2 counterexample: for the empty resources list with both gateways
configured, `execute_cloud_command` issues no provider call but returns
the ordinary success envelope with an empty results mapping — not an
UnsupportedCommand-class (terminal 400-class) error result. -/
theorem empty_resources_returns_plain_success_envelope :
    executeCloudCommand demoCtx ⟨["AWS".data], [], "list".data, []⟩
      = (.ok { command_interpreted := ⟨["AWS".data], [], "list".data, []⟩
               results := []
               available_services := ⟨true, true, true⟩ }, [])
    ∧ ¬ UnsupportedCommandResult
        (executeCloudCommand demoCtx ⟨["AWS".data], [], "list".data, []⟩).1 := by
  refine ⟨rfl, ?_⟩
  rintro ⟨e, he⟩
  rw [show (executeCloudCommand demoCtx ⟨["AWS".data], [], "list".data, []⟩).1
      = Except.ok { command_interpreted := ⟨["AWS".data], [], "list".data, []⟩
                    results := []
                    available_services := ⟨true, true, true⟩ } from rfl] at he
  exact Except.noConfusion he

/-- C5 amended: the dispatcher never invokes the Error Analyst for any
command and any gateway configuration — caught operation errors are
surfaced as plain message strings.  `analyze_error` is reachable only
through the separate `/analyze-error` endpoint, which passes the four
request fields through to it. -/
theorem dispatcher_never_invokes_error_analyst (ctx : Ctx) (cmd : Command)
    (o e p r : Str) :
    Call.analyzeErrorOp o e p r ∉ (executeCloudCommand ctx cmd).2
    ∧ analyzeErrorEndpointCalls o e p r = [.analyzeErrorOp o e p r] := by
  refine ⟨?_, rfl⟩
  rw [executeCloudCommand_trace]
  intro hmem
  rcases List.mem_append.mp hmem with hmem12 | h3m
  · rcases List.mem_append.mp hmem12 with h1m | h2m
    · exact azureFirstBlock_no_analyze ctx cmd o e p r h1m
    · exact awsBlock_no_analyze ctx cmd o e p r h2m
  · exact azureSecondBlock_no_analyze ctx cmd o e p r h3m

/-- C5 amended witness at a concrete request. -/
theorem dispatcher_never_invokes_error_analyst_witness :
    Call.analyzeErrorOp "list_s3_buckets".data "denied".data "AWS".data "s3".data ∉
      (executeCloudCommand demoCtx ⟨["AWS".data], ["costs".data], "get".data, []⟩).2
    ∧ analyzeErrorEndpointCalls "list_s3_buckets".data "denied".data "AWS".data "s3".data
      = [.analyzeErrorOp "list_s3_buckets".data "denied".data "AWS".data "s3".data] :=
  dispatcher_never_invokes_error_analyst demoCtx
    ⟨["AWS".data], ["costs".data], "get".data, []⟩
    "list_s3_buckets".data "denied".data "AWS".data "s3".data

/-- C2 amended: a command whose resources list is empty, or whose
resource tokens all match no dispatch branch for its action, yields the
ordinary success envelope with an empty results mapping (no
UnsupportedCommand-class error marker exists), with no provider gateway
call and no Error Analyst call issued. -/
theorem unmatched_command_plain_empty_envelope (ctx : Ctx) (cmd : Command)
    (az : AzureClientM) (aw : AwsClientM)
    (haz : ctx.azure = some az) (haw : ctx.aws = some aw)
    (h : ∀ r0 ∈ cmd.resources, resourceMatches r0 cmd.action = false) :
    executeCloudCommand ctx cmd
      = (.ok { command_interpreted := cmd
               results := []
               available_services := ⟨true, true, ctx.llm⟩ }, []) := by
  have h1 := azureResourceLoop_no_match az cmd cmd.resources h
  have h2 := awsResourceLoop_no_match aw ctx cmd cmd.resources h
  have hb1 : azureFirstBlock ctx cmd = ([], []) := by
    unfold azureFirstBlock
    rw [haz]
    cases hmem : pyMem "Azure".data cmd.platforms
    · simp [hmem]
    · simp [hmem, h1]
  have hb2 : awsBlock ctx cmd = ([], []) := by
    unfold awsBlock
    rw [haw]
    cases hmem : pyMem "AWS".data cmd.platforms
    · simp [hmem]
    · simp [hmem, h2]
  have hb3 : azureSecondBlock ctx cmd = (.ok [], []) := by
    unfold azureSecondBlock
    rw [haz]
    cases hmem : pyMem "Azure".data cmd.platforms
    · simp [hmem]
    · cases hvm : pyMem "VM".data cmd.resources
      · cases hrg : pyMem "ResourceGroup".data cmd.resources
        · simp [hmem, hvm, hrg]
        · have hx := h _ (pyMem_iff.mp hrg)
          simp only [resourceMatches] at hx
          simp at hx
          simp [hmem, hvm, hrg, hx]
      · have hx := h _ (pyMem_iff.mp hvm)
        simp only [resourceMatches] at hx
        simp at hx
        simp [hmem, hvm, hx.1, hx.2]
  simp [executeCloudCommand, hb1, hb2, hb3, haz, haw]

/-- C2 amended, witness at an unmatched concrete command. -/
theorem unmatched_command_plain_empty_envelope_witness :
    executeCloudCommand demoCtx ⟨["AWS".data], ["database".data], "delete".data, []⟩
      = (.ok { command_interpreted := ⟨["AWS".data], ["database".data], "delete".data, []⟩
               results := []
               available_services := ⟨true, true, true⟩ }, []) :=
  unmatched_command_plain_empty_envelope demoCtx
    ⟨["AWS".data], ["database".data], "delete".data, []⟩
    okAzureClient okAwsClient rfl rfl (by decide)

/-- C10 amended: for a command naming platform Azure and resource `VM`
with an action containing `status` but NOT containing `list`, when the
Azure gateway is configured, the second Azure block subscripts
`parameters[resource_group]` and `parameters[vm_name]` outside any
`try`; if either is absent the whole request raises (surfaced as an
HTTP 500) and no envelope is produced. -/
theorem missing_vm_status_parameters_raise (ctx : Ctx) (cmd : Command)
    (az : AzureClientM) (haz : ctx.azure = some az)
    (hp : pyMem "Azure".data cmd.platforms = true)
    (hvm : pyMem "VM".data cmd.resources = true)
    (hstatus : containsSub "status".data (pyLower cmd.action) = true)
    (hlist : containsSub "list".data (pyLower cmd.action) = false)
    (hparams : pyGet cmd.parameters "resource_group".data = none
      ∨ pyGet cmd.parameters "vm_name".data = none) :
    ∃ e, (executeCloudCommand ctx cmd).1 = .error e := by
  have hb3 : ∃ e, (azureSecondBlock ctx cmd).1 = .error e := by
    unfold azureSecondBlock
    rw [haz]
    rcases hparams with hrg | hvn
    · exact ⟨keyErrorMsg "resource_group".data, by simp [hp, hvm, hstatus, hlist, hrg]⟩
    · cases hrg : pyGet cmd.parameters "resource_group".data with
      | none =>
        exact ⟨keyErrorMsg "resource_group".data, by simp [hp, hvm, hstatus, hlist, hrg]⟩
      | some rg =>
        exact ⟨keyErrorMsg "vm_name".data, by simp [hp, hvm, hstatus, hlist, hrg, hvn]⟩
  obtain ⟨e, he⟩ := hb3
  exact ⟨e, by simp [executeCloudCommand, he]⟩

/-- C10 amended, witness at a concrete status command with no parameters. -/
theorem missing_vm_status_parameters_raise_witness :
    ∃ e, (executeCloudCommand demoCtx ⟨["Azure".data], ["VM".data], "status".data, []⟩).1
      = .error e :=
  missing_vm_status_parameters_raise demoCtx
    ⟨["Azure".data], ["VM".data], "status".data, []⟩
    okAzureClient rfl (by decide) (by decide) (by decide) (by decide) (Or.inl rfl)

/-- C6: the textual parsing step is a total function (it returns a
Structured Command for every model output and can never raise), and any
prefix of lines carrying no section header — lines outside any section —
is ignored: parsing with the unknown prefix gives the same Structured
Command as parsing without it. -/
theorem junk_lines_outside_sections_ignored (pre rest : List Str)
    (h : ∀ l ∈ pre, sectionOfHeader (pyLower (pyStrip l)) = none) :
    parseResponseLines (pre ++ rest) = parseResponseLines rest := by
  unfold parseResponseLines
  rw [List.foldl_append, foldl_parseStep_junk pre h]

/-- C6 witness: garbled prose and a stray bullet before the first header
do not change the parse. -/
theorem junk_lines_outside_sections_ignored_witness :
    parseResponseLines
        (["Sure, here is the parsed command".data, "- stray bullet".data]
          ++ ["Platforms:".data, "- AWS".data])
      = parseResponseLines ["Platforms:".data, "- AWS".data] :=
  junk_lines_outside_sections_ignored
    ["Sure, here is the parsed command".data, "- stray bullet".data]
    ["Platforms:".data, "- AWS".data] (by decide)

/-- C8 counterexample: the Error Analyst variant actually wired into the
routes (`services/llm_service.py`) does not return four sections and does
raise for malformed model output: a JSON decode failure is re-raised
wrapped in `Error analyzing error: ...`. -/
theorem services_analyze_error_raises_on_malformed :
    servicesAnalyzeError (.error "Expecting value: line 1 column 1".data)
      = .error "Error analyzing error: Expecting value: line 1 column 1".data := rfl

/-- C8 amended: the `llm` package's Error Analyst parses by forgiving
line scanning into exactly the four always-present section lists and is
total (never raises); each section whose keyword appears on no line of
the output is present as an empty list. -/
theorem error_sections_absent_are_empty (response : Str) :
    ((∀ l ∈ splitOnChar '\n' response,
        containsSub "explanation".data (pyLower (pyStrip l)) = false) →
      (analyzeErrorParse response).explanation = [])
    ∧ ((∀ l ∈ splitOnChar '\n' response,
        containsSub "causes".data (pyLower (pyStrip l)) = false) →
      (analyzeErrorParse response).causes = [])
    ∧ ((∀ l ∈ splitOnChar '\n' response,
        containsSub "solution".data (pyLower (pyStrip l)) = false) →
      (analyzeErrorParse response).solutions = [])
    ∧ ((∀ l ∈ splitOnChar '\n' response,
        containsSub "prevention".data (pyLower (pyStrip l)) = false) →
      (analyzeErrorParse response).prevention = []) := by
  refine ⟨fun h => ?_, fun h => ?_, fun h => ?_, fun h => ?_⟩
  · exact analyzeFold_explanation_empty _ _ (by simp) rfl h
  · exact analyzeFold_causes_empty _ _ (by simp) rfl h
  · exact analyzeFold_solutions_empty _ _ (by simp) rfl h
  · exact analyzeFold_prevention_empty _ _ (by simp) rfl h

/-- C8 amended witness: an output with only an explanation section has
empty causes. -/
theorem error_sections_absent_are_empty_witness :
    (analyzeErrorParse "Explanation:\nall good".data).causes = [] :=
  (error_sections_absent_are_empty "Explanation:\nall good".data).2.1 (by decide)

/-- C9 counterexample: the round trip fails on a command whose resource
token is not lower-cased (parameter values contain no raw newline): the
parser lowers `EC2` to `ec2`, so parse after format is not the
identity. -/
theorem roundtrip_fails_on_uppercase_resource :
    processCloudQueryParse (formatCommand ⟨[], ["EC2".data], [], []⟩)
      = ⟨[], ["ec2".data], [], []⟩
    ∧ (⟨[], ["ec2".data], [], []⟩ : PCommand) ≠ ⟨[], ["EC2".data], [], []⟩ := by
  exact ⟨rfl, by decide⟩

/-- C9 amended: parse after format is the identity on every Structured
Command in the canonical textual encoding: platform tokens trimmed,
non-empty and newline-free; resource tokens additionally lower-cased;
the action trimmed and newline-free; parameter keys trimmed, non-empty,
colon-free and newline-free with pairwise distinct keys; scalar values
trimmed, newline-free and not bracket-shaped; list values non-empty with
comma-free, newline-free items carrying no double quote at either
edge. -/
theorem parse_format_identity (cmd : PCommand) (h : cleanCommand cmd = true) :
    processCloudQueryParse (formatCommand cmd) = cmd := by
  obtain ⟨ps, rs, act, prm⟩ := cmd
  obtain ⟨hplat, hres, hact, hparams, hdist⟩ := cleanCommand_parts h
  unfold processCloudQueryParse formatCommand
  rw [splitOnChar_joinLines _ (by simp [formatLines]) (formatLines_no_newline _ h)]
  unfold parseResponseLines formatLines
  have hfold : prm.foldl (fun d kv => pyDictSet d kv.1 kv.2) [] = prm := by
    simpa using foldl_pyDictSet_fresh prm [] hdist (fun kv _ => rfl)
  have s1 : List.foldl parseStep (Sect.start, PCommand.empty)
      ("Platforms:".data :: ps.map bulletLine)
      = (Sect.platforms, ⟨ps, [], [], []⟩) := by
    rw [List.foldl_cons, parseStep_header_platforms, foldl_platform_bullets _ _ hplat]
    rfl
  have s2 : List.foldl parseStep (Sect.platforms, (⟨ps, [], [], []⟩ : PCommand))
      ("Resources:".data :: rs.map bulletLine)
      = (Sect.resources, ⟨ps, rs, [], []⟩) := by
    rw [List.foldl_cons, parseStep_header_resources, foldl_resources_bullets _ _ hres]
    rfl
  have s3 : List.foldl parseStep (Sect.resources, (⟨ps, rs, [], []⟩ : PCommand))
      ("Action:".data :: (if act.isEmpty = true then [] else [bulletLine act]))
      = (Sect.action, ⟨ps, rs, act, []⟩) := by
    cases hae : act.isEmpty with
    | true =>
      have ha : act = [] := by
        cases act with
        | nil => rfl
        | cons c cs => simp at hae
      subst ha
      rw [if_pos rfl, List.foldl_cons, parseStep_header_action, List.foldl_nil]
    | false =>
      have hane : act ≠ [] := ne_nil_of_isEmpty_eq_false hae
      have hasp : noEdgeSpace act = true := by
        simp only [cleanAction, Bool.and_eq_true, Bool.not_eq_true'] at hact
        exact hact.1
      rw [if_neg (by simp), List.foldl_cons, parseStep_header_action, List.foldl_cons,
        parseStep_action_bullet _ _ hasp hane, List.foldl_nil]
  have s4 : List.foldl parseStep (Sect.action, (⟨ps, rs, act, []⟩ : PCommand))
      ("Parameters:".data :: prm.map paramLine)
      = (Sect.parameters, ⟨ps, rs, act, prm⟩) := by
    rw [List.foldl_cons, parseStep_header_parameters, foldl_param_bullets _ _ hparams]
    simp [hfold]
  rw [List.foldl_append, List.foldl_append, List.foldl_append, s1, s2, s3, s4]

/-- C9 amended witness at a concrete canonical command with a scalar and
a list parameter. -/
theorem parse_format_identity_witness :
    processCloudQueryParse (formatCommand
        ⟨["AWS".data], ["ec2".data], "list".data,
         [("instance-state-name".data, PValue.listVal ["running".data]),
          ("region".data, PValue.scalar "us-west-2".data)]⟩)
      = ⟨["AWS".data], ["ec2".data], "list".data,
         [("instance-state-name".data, PValue.listVal ["running".data]),
          ("region".data, PValue.scalar "us-west-2".data)]⟩ :=
  parse_format_identity _ (by decide)

end CloudWise
